import Mathlib

/-!
Verification development for the DIBBS solicitations scraper.

Shallow embedding of the core of the repository:
  * `src/combined.py` — `DIBBSUnifiedScraper` (file parsers, reconciliation
    engine `merge_data_sources`, helpers) and `dibbs_solicitations_scrape`;
  * `src/solicitations.py` — `FormParser`, the purchase-request cell logic of
    `RfqRecsParser.handle_endtag`, `dibbs_session`, `dibbs_solicitations`.

Python strings are modelled as Lean `String` (a list of characters); the
Python string methods used by the code (`strip`, `upper`, `replace`, `split`,
`zfill`, `isdigit`, `int(...)`, `float(...)`) are reproduced as explicit
functions below.  `datetime.strptime` is reproduced for exactly the six
formats the code passes to it, including CPython's regex alternation order
for `%m`/`%d` and the calendar validation done by the `datetime` constructor.
-/

namespace DIBBS

/-- Python `str.strip()`: remove leading and trailing whitespace. -/
def pyStrip (s : String) : String :=
  ⟨(s.data.dropWhile Char.isWhitespace).reverse.dropWhile Char.isWhitespace |>.reverse⟩

/-- Python `str.strip(c)` with a single-character argument: remove all leading
and trailing occurrences of `c`. -/
def pyStripChar (c : Char) (s : String) : String :=
  ⟨(s.data.dropWhile (· = c)).reverse.dropWhile (· = c) |>.reverse⟩

/-- Python `str.upper()` (the data here is ASCII). -/
def pyUpper (s : String) : String := ⟨s.data.map Char.toUpper⟩

/-- One step of Python `str.replace(old, new)` on character lists: replace
every non-overlapping occurrence of `pat`, scanning left to right.  (Python
raises on an empty pattern only for `split`; `replace('')` inserts, but the
code only ever replaces non-empty literals, so the empty-pattern case just
returns the input.)  `fuel` only makes the recursion structural — the prefix
branch drops `pat.length ≥ 1` characters — and is always at least
`cs.length` at the call site, so the zero branch is unreachable. -/
def replaceFuel (fuel : Nat) (cs pat repl : List Char) : List Char :=
  match fuel, cs with
  | 0, cs => cs
  | _ + 1, [] => []
  | fuel + 1, c :: rest =>
    if pat ≠ [] ∧ pat.isPrefixOf (c :: rest) then
      repl ++ replaceFuel fuel ((c :: rest).drop pat.length) pat repl
    else
      c :: replaceFuel fuel rest pat repl

/-- Python `str.replace(old, new)`. -/
def pyReplace (s pat repl : String) : String :=
  ⟨replaceFuel s.data.length s.data pat.data repl.data⟩

/-- Split a character list at every character satisfying `p`
(Python `str.split(sep)` keeps empty pieces). -/
def splitOnPred (p : Char → Bool) : List Char → List (List Char)
  | [] => [[]]
  | c :: rest =>
    let r := splitOnPred p rest
    if p c then [] :: r
    else
      match r with
      | [] => [[c]]
      | h :: t => (c :: h) :: t

/-- Python `str.split(c)` for a one-character separator. -/
def pySplitChar (c : Char) (s : String) : List String :=
  (splitOnPred (· = c) s.data).map (⟨·⟩)

/-- Python `str.split()` with no argument: split on whitespace runs and drop
the empty pieces. -/
def pySplitWs (s : String) : List String :=
  ((splitOnPred Char.isWhitespace s.data).map (⟨·⟩)).filter (· ≠ "")

/-- Does `cs` contain `pat` as a contiguous subsequence
(Python `pat in s`)? -/
def containsSeq (cs pat : List Char) : Bool :=
  if pat.isPrefixOf cs then true
  else
    match cs with
    | [] => false
    | _ :: t => containsSeq t pat

/-- Python `str.split(sep)` for a multi-character separator: split at each
non-overlapping occurrence, scanning left to right.  As in `replaceFuel`,
`fuel ≥ cs.length` keeps the recursion structural and the zero branch
unreachable. -/
def splitOnSeqFuel (fuel : Nat) (cs pat : List Char) : List (List Char) :=
  match fuel, cs with
  | 0, cs => [cs]
  | _ + 1, [] => [[]]
  | fuel + 1, c :: rest =>
    if pat ≠ [] ∧ pat.isPrefixOf (c :: rest) then
      [] :: splitOnSeqFuel fuel ((c :: rest).drop pat.length) pat
    else
      match splitOnSeqFuel fuel rest pat with
      | [] => [[c]]
      | h :: t => (c :: h) :: t

/-- Python `sub in s` on strings. -/
def pyContains (s sub : String) : Bool := containsSeq s.data sub.data

/-- Python `s.split(sub)` on strings (non-empty separator). -/
def pySplitSeq (s sub : String) : List String :=
  (splitOnSeqFuel s.data.length s.data sub.data).map (⟨·⟩)

/-- Python `str.zfill(width)`: left-pad with zeros to `width`, keeping a
leading sign in place. -/
def pyZfill (width : Nat) (s : String) : String :=
  if s.data.length ≥ width then s
  else
    match s.data with
    | c :: rest =>
      if c = '+' ∨ c = '-' then
        ⟨c :: (List.replicate (width - s.data.length) '0' ++ rest)⟩
      else ⟨List.replicate (width - s.data.length) '0' ++ s.data⟩
    | [] => ⟨List.replicate width '0'⟩

/-- Python `str.isdigit()` (ASCII digits; the data never contains the extra
Unicode digit characters Python would also accept). -/
def pyIsDigit (s : String) : Bool :=
  s.data ≠ [] && s.data.all Char.isDigit

/-- Value of a non-empty list of ASCII digits. -/
def digitsToNat (cs : List Char) : Nat :=
  cs.foldl (fun acc c => acc * 10 + (c.toNat - '0'.toNat)) 0

/-- Python `int(s)`: strip whitespace, optional sign, then a non-empty digit
run (the underscore grouping Python also permits never occurs in this data
and is not modelled). -/
def pyInt (s : String) : Option Int := do
  let t := (pyStrip s).data
  let (sign, digits) :=
    match t with
    | '+' :: rest => (1, rest)
    | '-' :: rest => (-1, rest)
    | _ => ((1 : Int), t)
  if digits ≠ [] ∧ digits.all Char.isDigit then
    some (sign * (digitsToNat digits : Int))
  else none

/-- Python `float(s)` on the plain decimal forms appearing in this data:
optional sign, digits with an optional fractional part (at least one digit
overall), optional exponent.  The special forms (`inf`, `nan`, hex) never
occur in the files and are not modelled.  The value is kept exactly as a
rational. -/
def pyFloat (s : String) : Option ℚ := do
  let t := (pyStrip s).data
  let (sign, t1) :=
    match t with
    | '+' :: rest => ((1 : ℚ), rest)
    | '-' :: rest => (-1, rest)
    | _ => ((1 : ℚ), t)
  let ip := t1.takeWhile Char.isDigit
  let t2 := t1.drop ip.length
  let (fp, t3) :=
    match t2 with
    | '.' :: rest => (rest.takeWhile Char.isDigit, rest.drop (rest.takeWhile Char.isDigit).length)
    | _ => ([], t2)
  if ip = [] ∧ fp = [] then none
  else
    let (expOk, expVal, t4) :=
      match t3 with
      | 'e' :: rest | 'E' :: rest =>
        let (esign, rest1) :=
          match rest with
          | '+' :: r => ((1 : Int), r)
          | '-' :: r => (-1, r)
          | _ => ((1 : Int), rest)
        let ed := rest1.takeWhile Char.isDigit
        if ed = [] then (false, (0 : Int), rest1)
        else (true, esign * (digitsToNat ed : Int), rest1.drop ed.length)
      | _ => (true, 0, t3)
    if expOk ∧ t4 = [] then
      let mantissa : ℚ := (digitsToNat (ip ++ fp) : ℚ) / ((10 : ℚ) ^ fp.length)
      some (sign * mantissa * (10 : ℚ) ^ (expVal : ℤ))
    else none

/-! ### `datetime.strptime` for the six formats used by `parse_date`

CPython compiles each format directive to a regex fragment; the fragments for
the directives used here are
`%m ↦ 1[0-2]|0[1-9]|[1-9]`, `%d ↦ 3[01]|[12]\d|0[1-9]|[1-9]`,
`%Y ↦ \d\d\d\d`, `%y ↦ \d\d`, and the full string must match.  Alternatives
are tried in the order written, with backtracking.  The resulting numbers are
then passed to the `datetime` constructor, which validates the calendar day
and the year range and raises `ValueError` otherwise (the caller treats that
as a failed format). -/

/-- A `strptime` format directive. -/
inductive FTok where
  | lit (c : Char)
  | M | D | Y4 | Y2
deriving DecidableEq, Repr

/-- `'%m/%d/%Y'` — the default format of `parse_date`. -/
def fmtMDYslash : List FTok := [.M, .lit '/', .D, .lit '/', .Y4]
/-- `'%m-%d-%Y'`. -/
def fmtMDYdash : List FTok := [.M, .lit '-', .D, .lit '-', .Y4]
/-- `'%Y-%m-%d'`. -/
def fmtYMDdash : List FTok := [.Y4, .lit '-', .M, .lit '-', .D]
/-- `'%m/%d/%y'`. -/
def fmtMDY2slash : List FTok := [.M, .lit '/', .D, .lit '/', .Y2]
/-- `'%m%d%Y'`. -/
def fmtMDY4compact : List FTok := [.M, .D, .Y4]
/-- `'%m%d%y'`. -/
def fmtMDY2compact : List FTok := [.M, .D, .Y2]
/-- `'%m%d%y'` — the format `merge_data_sources` passes for the IN file. -/
def fmtINfile : List FTok := fmtMDY2compact

/-- Candidate matches for `%m` in regex alternation order:
`1[0-2]`, `0[1-9]`, `[1-9]`. -/
def candM : List Char → List (Nat × List Char)
  | '1' :: c :: rest =>
    (if '0' ≤ c ∧ c ≤ '2' then [(10 + (c.toNat - '0'.toNat), rest)] else []) ++
    [(1, c :: rest)]
  | '0' :: c :: rest =>
    if '1' ≤ c ∧ c ≤ '9' then [(c.toNat - '0'.toNat, rest)] else []
  | c :: rest =>
    if '1' ≤ c ∧ c ≤ '9' then [(c.toNat - '0'.toNat, rest)] else []
  | [] => []

/-- Candidate matches for `%d` in regex alternation order:
`3[01]`, `[12]\d`, `0[1-9]`, `[1-9]`. -/
def candD : List Char → List (Nat × List Char)
  | '3' :: c :: rest =>
    (if c = '0' ∨ c = '1' then [(30 + (c.toNat - '0'.toNat), rest)] else []) ++
    [(3, c :: rest)]
  | c1 :: c2 :: rest =>
    (if (c1 = '1' ∨ c1 = '2') ∧ c2.isDigit then
      [((c1.toNat - '0'.toNat) * 10 + (c2.toNat - '0'.toNat), rest)] else []) ++
    (if c1 = '0' ∧ '1' ≤ c2 ∧ c2 ≤ '9' then [(c2.toNat - '0'.toNat, rest)] else []) ++
    (if '1' ≤ c1 ∧ c1 ≤ '9' then [(c1.toNat - '0'.toNat, c2 :: rest)] else [])
  | [c] => if '1' ≤ c ∧ c ≤ '9' then [(c.toNat - '0'.toNat, [])] else []
  | [] => []

/-- Candidate match for `%Y`: exactly four digits. -/
def candY4 : List Char → List (Nat × List Char)
  | a :: b :: c :: d :: rest =>
    if a.isDigit ∧ b.isDigit ∧ c.isDigit ∧ d.isDigit then
      [(digitsToNat [a, b, c, d], rest)]
    else []
  | _ => []

/-- Candidate match for `%y`: exactly two digits. -/
def candY2 : List Char → List (Nat × List Char)
  | a :: b :: rest =>
    if a.isDigit ∧ b.isDigit then [(digitsToNat [a, b], rest)] else []
  | _ => []

/-- Fields captured by a `strptime` match. -/
structure StrpAcc where
  m : Option Nat := none
  d : Option Nat := none
  bigY : Option Nat := none
  y2 : Option Nat := none
deriving DecidableEq, Repr

/-- Match a format against the whole input with regex-style backtracking
(first full match, alternatives in priority order). -/
def matchToks : List FTok → List Char → StrpAcc → Option StrpAcc
  | [], cs, acc => if cs = [] then some acc else none
  | .lit c :: rest, cs, acc =>
    match cs with
    | x :: xs => if x = c then matchToks rest xs acc else none
    | [] => none
  | .M :: rest, cs, acc =>
    (candM cs).findSome? fun p => matchToks rest p.2 { acc with m := some p.1 }
  | .D :: rest, cs, acc =>
    (candD cs).findSome? fun p => matchToks rest p.2 { acc with d := some p.1 }
  | .Y4 :: rest, cs, acc =>
    (candY4 cs).findSome? fun p => matchToks rest p.2 { acc with bigY := some p.1 }
  | .Y2 :: rest, cs, acc =>
    (candY2 cs).findSome? fun p => matchToks rest p.2 { acc with y2 := some p.1 }

/-- Is `y` a leap year (proleptic Gregorian, as `datetime` uses)? -/
def isLeap (y : Nat) : Bool :=
  y % 4 = 0 && (y % 100 ≠ 0 || y % 400 = 0)

/-- Days in a month, as validated by the `datetime` constructor. -/
def daysInMonth (y m : Nat) : Nat :=
  if m = 2 then (if isLeap y then 29 else 28)
  else if m = 4 ∨ m = 6 ∨ m = 9 ∨ m = 11 then 30
  else 31

/-- `datetime.strptime(s, fmt).date()` for the formats above: regex match,
two-digit-year pivot (`00–68 ↦ 2000s`, `69–99 ↦ 1900s`), then calendar
validation by the `datetime` constructor (month default 1, day default 1,
year default 1900 when a directive is absent — all six formats here contain
all three). -/
def strptimeDate (fmt : List FTok) (s : String) : Option (Nat × Nat × Nat) := do
  let acc ← matchToks fmt s.data {}
  let y :=
    match acc.bigY, acc.y2 with
    | some bigY, _ => bigY
    | none, some y2 => if y2 ≤ 68 then 2000 + y2 else 1900 + y2
    | none, none => 1900
  let m := acc.m.getD 1
  let d := acc.d.getD 1
  if 1 ≤ y ∧ y ≤ 9999 ∧ d ≤ daysInMonth y m then some (y, m, d) else none

/-- Zero-pad a number to `w` digits (for `strftime('%Y-%m-%d')`). -/
def padNum (w : Nat) (n : Nat) : String :=
  pyZfill w ⟨Nat.toDigits 10 n⟩

/-- `dt.strftime('%Y-%m-%d')`. -/
def formatYMD (y m d : Nat) : String :=
  padNum 4 y ++ "-" ++ padNum 2 m ++ "-" ++ padNum 2 d

/-- `DIBBSUnifiedScraper.parse_date` (combined.py:487): empty input gives
`None`; if the input contains `-` and its first `-`-separated piece has two
characters, the caller-supplied format is replaced by `%m-%d-%Y`; then the
six formats are tried in order and the first `strptime` success is
re-rendered as `YYYY-MM-DD`. -/
def parse_date (dateStr : String) (fmt : List FTok := fmtMDYslash) : Option String :=
  if dateStr = "" ∨ pyStrip dateStr = "" then none
  else
    let fmt :=
      if pyContains dateStr "-" ∧ ((pySplitChar '-' dateStr).headD "").data.length = 2 then
        fmtMDYdash
      else fmt
    let formats := [fmt, fmtMDYdash, fmtYMDdash, fmtMDY2slash, fmtMDY4compact, fmtMDY2compact]
    formats.findSome? fun f =>
      (strptimeDate f (pyStrip dateStr)).map fun p => formatYMD p.1 p.2.1 p.2.2

/-! ### Small helpers of `DIBBSUnifiedScraper` -/

/-- `DIBBSUnifiedScraper.clean_nsn` (combined.py:229): empty gives `''`;
otherwise everything after the first space is removed and the result
trimmed.  (Hyphens are deliberately kept.) -/
def clean_nsn (nsnValue : String) : String :=
  if nsnValue = "" then ""
  else pyStrip ((pySplitChar ' ' nsnValue).headD "")

/-- `DIBBSUnifiedScraper.clean_nomenclature` (combined.py:263): collapse
whitespace runs to single spaces. -/
def clean_nomenclature (nomenclature : String) : String :=
  if nomenclature = "" then ""
  else String.intercalate " " (pySplitWs nomenclature)

/-- Result of `DIBBSUnifiedScraper.decode_setaside`. -/
structure SetasideInfo where
  code : String
  description : String
  percentage : Nat
deriving DecidableEq, Repr

/-- `DIBBSUnifiedScraper.decode_setaside` (combined.py:467). -/
def decode_setaside (code : String) : SetasideInfo :=
  if code = "Y" then ⟨code, "Small Business Set-Aside", 100⟩
  else if code = "H" then ⟨code, "HUBZone Set-Aside", 100⟩
  else if code = "R" then
    ⟨code, "Service Disabled Veteran-Owned Small Business (SDVOSB) Set-Aside", 100⟩
  else if code = "L" then ⟨code, "Woman Owned Small Business (WOSB) Set-Aside", 100⟩
  else if code = "A" then ⟨code, "8a Set-Aside", 100⟩
  else if code = "E" then
    ⟨code, "Economically Disadvantaged Woman Owned Small Business (EDWOSB) Set-Aside", 100⟩
  else if code = "N" then ⟨code, "Unrestricted/Not Set-Aside", 0⟩
  else ⟨code, "Unknown", 0⟩

/-- `DIBBSUnifiedScraper._parse_int` (combined.py:819): `None`/`''` give
`None`; otherwise strip, remove commas, and apply `int(...)`, with failures
mapped to `None`. -/
def _parse_int (value : String) : Option Int :=
  if value = "" then none
  else pyInt (pyReplace (pyStrip value) "," "")

/-- `DIBBSUnifiedScraper._parse_float` (combined.py:830). -/
def _parse_float (value : String) : Option ℚ :=
  if value = "" then none
  else pyFloat (pyReplace (pyStrip value) "," "")

/-! ### `extract_quantity_from_purchase_request`

`DIBBSUnifiedScraper.extract_quantity_from_purchase_request` (combined.py:241)
uses the regex `\s*QTY:\s*(\d+(?:,\d+)*)\s*` with `re.IGNORECASE`:
`re.search` for the quantity group, `re.sub` (all occurrences) to remove the
matched spans.  For this pattern the regex engine is deterministic: at a
given start position the match consumes a whitespace run, the literal
`QTY:` (case-insensitive), a whitespace run, a digit run, then zero or more
`,`+digit-run groups, then a trailing whitespace run. -/

/-- The `(?:,\d+)*` part of the pattern: greedily consume `,`+digit-run
groups, appending them to the captured token `acc`.  `fuel ≥ cur.length`
keeps the recursion structural (each group consumes at least two
characters). -/
def qtyGroups (fuel : Nat) (acc cur : List Char) : List Char × List Char :=
  match fuel, cur with
  | 0, cur => (acc, cur)
  | fuel + 1, ',' :: more =>
    let dn := more.takeWhile Char.isDigit
    if dn = [] then (acc, ',' :: more)
    else qtyGroups fuel (acc ++ ',' :: dn) (more.drop dn.length)
  | _ + 1, cur => (acc, cur)

/-- Try to match `\s*QTY:\s*(\d+(?:,\d+)*)\s*` at the start of `cs`.
On success returns the remainder after the match and the captured
digits-with-commas token. -/
def matchQtyAt (cs : List Char) : Option (List Char × List Char) :=
  let afterWs1 := cs.dropWhile Char.isWhitespace
  match afterWs1 with
  | q :: t :: y :: colon :: rest =>
    if q.toUpper = 'Q' ∧ t.toUpper = 'T' ∧ y.toUpper = 'Y' ∧ colon = ':' then
      let afterWs2 := rest.dropWhile Char.isWhitespace
      let d1 := afterWs2.takeWhile Char.isDigit
      if d1 = [] then none
      else
        let rest2 := afterWs2.drop d1.length
        let (tok, afterTok) := qtyGroups rest2.length d1 rest2
        some (afterTok.dropWhile Char.isWhitespace, tok)
    else none
  | _ => none

/-- `re.search`: the captured quantity token of the first (leftmost) match. -/
def qtySearch : List Char → Option (List Char)
  | [] => (matchQtyAt []).map (·.2)
  | c :: rest =>
    match matchQtyAt (c :: rest) with
    | some p => some p.2
    | none => qtySearch rest

/-- `re.sub(pattern, '', s)`: delete every non-overlapping match, scanning
left to right.  A match always consumes at least five characters, so
`fuel ≥ cs.length` makes the zero branch unreachable while keeping the
recursion structural. -/
def qtySubFuel (fuel : Nat) (cs : List Char) : List Char :=
  match fuel, cs with
  | 0, cs => cs
  | _ + 1, [] => []
  | fuel + 1, c :: rest =>
    match matchQtyAt (c :: rest) with
    | some p => qtySubFuel fuel p.1
    | none => c :: qtySubFuel fuel rest

/-- `re.sub(pattern, '', s)` at the always-sufficient fuel. -/
def qtySub (cs : List Char) : List Char := qtySubFuel cs.length cs

/-- `DIBBSUnifiedScraper.extract_quantity_from_purchase_request`
(combined.py:241): falsy input gives `('', None)`; otherwise search for the
`QTY:` pattern; on a hit the quantity is the captured token with commas
removed as an `int`, and the cleaned purchase request is the input with all
matches deleted, then stripped; otherwise the stripped input and `None`. -/
def extract_quantity_from_purchase_request (purchaseRequest : String) :
    String × Option Int :=
  if purchaseRequest = "" then ("", none)
  else
    match qtySearch purchaseRequest.data with
    | some tok =>
      let qty : Int := digitsToNat (tok.filter (· ≠ ','))
      (pyStrip ⟨qtySub purchaseRequest.data⟩, some qty)
    | none => (pyStrip purchaseRequest, none)

/-! ### The purchase-request cell logic of `RfqRecsParser.handle_endtag`

solicitations.py:203–227 (the `td_count == 7` branch): the cell text is split
on newlines into stripped non-empty lines; if the first line contains `QTY:`
(after uppercasing) it is split there, the left part becoming the PR number
and the right part the quantity text; otherwise the first line is the PR
number and the quantity is looked for in the later lines. -/

/-- The quantity scan over the lines after the first (`for line in lines[1:]`):
the first line containing `QTY:` yields the text after `QTY:`; otherwise the
first line containing any digit is taken whole. -/
def rfqQtyFromLines : List String → String
  | [] => ""
  | l :: rest =>
    if pyContains (pyUpper l) "QTY:" then
      pyStrip (((pySplitSeq (pyUpper l) "QTY:").get? 1).getD "")
    else if l.data.any Char.isDigit then l
    else rfqQtyFromLines rest

/-- The `(pr_number, quantity)` pair the HTML row parser stores for a
purchase-request cell text (both default to `''` when the cell is blank). -/
def rfqSplitPurchaseRequest (cellText : String) : String × String :=
  let lines := ((pySplitChar '\n' cellText).map pyStrip).filter (· ≠ "")
  match lines with
  | [] => ("", "")
  | prLine :: restLines =>
    if pyContains (pyUpper prLine) "QTY:" then
      let parts := pySplitSeq (pyUpper prLine) "QTY:"
      (pyStrip (parts.headD ""), pyStrip ((parts.get? 1).getD ""))
    else
      (prLine, rfqQtyFromLines restLines)

/-! ### The three flat-file parsers -/

/-- Python `line[a:b].strip()` (slicing never raises; out-of-range gives
`''`). -/
def sliceStrip (s : String) (a b : Nat) : String :=
  pyStrip ⟨(s.data.drop a).take (b - a)⟩

/-- One record of the fixed-width IN file (`parse_in_file`). -/
structure InRecord where
  solicitation_number : String
  nsn_part_number : String
  purchase_request : String
  return_by_date : String
  file_name : String
  quantity : String
  unit_issue : String
  nomenclature : String
  buyer_code : String
  amsc : String
  item_type : String
  small_business_setaside : String
  setaside_percentage : String
  /-- `nsn_clean` is added to the dict only when `nsn_part_number` is
  non-empty. -/
  nsn_clean : Option String
deriving DecidableEq, Repr

/-- The record built from one line by
`DIBBSUnifiedScraper.parse_in_file` (combined.py:350).  Python's slicing
never raises, so the `try` body always succeeds; the `len(line) > k` guards
on the last four fields only reproduce what slicing does anyway. -/
def inRecordOfLine (line : String) : InRecord :=
  let nsnPart := sliceStrip line 13 59
  { solicitation_number := sliceStrip line 0 13
    nsn_part_number := nsnPart
    purchase_request := sliceStrip line 59 72
    return_by_date := sliceStrip line 72 80
    file_name := sliceStrip line 80 99
    quantity := sliceStrip line 99 106
    unit_issue := sliceStrip line 106 108
    nomenclature := sliceStrip line 108 129
    buyer_code := if line.data.length > 129 then sliceStrip line 129 134 else ""
    amsc := if line.data.length > 134 then sliceStrip line 134 135 else ""
    item_type := if line.data.length > 135 then sliceStrip line 135 136 else ""
    small_business_setaside := if line.data.length > 136 then sliceStrip line 136 137 else ""
    setaside_percentage := if line.data.length > 137 then sliceStrip line 137 140 else ""
    nsn_clean := if nsnPart ≠ "" then some (pyReplace nsnPart "-" "") else none }

/-- `DIBBSUnifiedScraper.parse_in_file` (combined.py:350): split the content
on newlines, skip blank lines, and build one record per remaining line. -/
def parse_in_file (content : String) : List InRecord :=
  (pySplitChar '\n' content).filterMap fun line =>
    if pyStrip line = "" then none else some (inRecordOfLine line)

/-- One approved-sources record (`parse_as_file`). -/
structure AsRecord where
  nsn : String
  supplier_cage_code : String
  supplier_part_number : String
  supplier_name : String
deriving DecidableEq, Repr

/-- The tokenization used by `DIBBSUnifiedScraper.parse_as_file`
(combined.py:402): a naive `line.split(',')` with surrounding double quotes
stripped from each piece. -/
def asTokenize (line : String) : List String :=
  (pySplitChar ',' line).map (pyStripChar '"')

/-- `DIBBSUnifiedScraper.parse_as_file` (combined.py:392): strip each line,
skip blanks, tokenize naively, and keep records with at least 3 columns. -/
def parse_as_file (content : String) : List AsRecord :=
  (pySplitChar '\n' content).filterMap fun rawLine =>
    let line := pyStrip rawLine
    if line = "" then none
    else
      let parts := asTokenize line
      if parts.length ≥ 3 then
        some { nsn := (parts.get? 0).getD ""
               supplier_cage_code := (parts.get? 1).getD ""
               supplier_part_number := (parts.get? 2).getD ""
               supplier_name := (parts.get? 3).getD "" }
      else none

/-- One scan step of the batch-quote tokenizer (combined.py:424–437): walk
the characters with a quote toggle; a `"` flips the toggle and is not
emitted; an unquoted `,` closes the current field; everything else is
appended to the current field. -/
def bqScan : List Char → Bool → List Char → List String × List Char
  | [], _, current => ([], current)
  | c :: rest, inQuotes, current =>
    if c = '"' then bqScan rest (!inQuotes) current
    else if c = ',' ∧ ¬inQuotes then
      let (parts, fin) := bqScan rest inQuotes []
      ((⟨current.reverse⟩ : String) :: parts, fin)
    else bqScan rest inQuotes (c :: current)

/-- The batch-quote tokenizer (combined.py:424–440): run the scan and append
the final field only when it is non-empty (`if current: parts.append(...)`). -/
def bqTokenize (line : String) : List String :=
  let (parts, fin) := bqScan line.data false []
  if fin ≠ [] then parts ++ [(⟨fin.reverse⟩ : String)] else parts

/-- One batch-quote record (`parse_bq_file`). -/
structure BqRecord where
  solicitation_number : String
  solicitation_type : String
  small_business_setaside : String
  additional_clause_fillins : String
  return_by_date : String
  line_number : String
  purchase_request : String
  nsn_part_number : String
  unit_of_issue : String
  quantity : String
  unit_price : String
  delivery_days : String
  /-- `nsn_clean` is added only when `nsn_part_number` is non-empty. -/
  nsn_clean : Option String
deriving DecidableEq, Repr

/-- `DIBBSUnifiedScraper.parse_bq_file` (combined.py:414): strip each line,
skip blanks, tokenize with the quote-aware scanner, accept records with at
least 48 columns, and project the named columns (each `strip('"')`-ed again,
a no-op since the tokenizer already consumed all quotes). -/
def parse_bq_file (content : String) : List BqRecord :=
  (pySplitChar '\n' content).filterMap fun rawLine =>
    let line := pyStrip rawLine
    if line = "" then none
    else
      let parts := bqTokenize line
      if parts.length ≥ 48 then
        let col := fun i => pyStripChar '"' ((parts.get? i).getD "")
        let nsnPart := col 46
        some { solicitation_number := col 0
               solicitation_type := col 1
               small_business_setaside := col 2
               additional_clause_fillins := col 3
               return_by_date := col 4
               line_number := col 43
               purchase_request := col 45
               nsn_part_number := nsnPart
               unit_of_issue := col 47
               quantity := col 48
               unit_price := col 49
               delivery_days := col 50
               nsn_clean := if nsnPart ≠ "" then some (pyReplace nsnPart "-" "") else none }
      else none

/-! ### The reconciliation engine: `merge_data_sources` (combined.py:510)

The Python code works on string-keyed dicts.  Dicts preserve insertion order
and assignment to an existing key keeps its position, which the association
lists below reproduce (`setSM`, `addGroup`).  The per-record timestamps
(`scrape_timestamp`, `last_updated` — wall-clock reads) and the purely
logging `debug_stats` are not part of the data flow and are omitted. -/

/-- A technical document scraped from the technical-documents column. -/
structure TechDoc where
  title : String
  url : String
deriving DecidableEq, Repr

/-- The approved-source reference attached to a CLIN by pass 4. -/
structure ApprovedSourceOut where
  supplier_cage_code : String
  supplier_part_number : String
deriving DecidableEq, Repr

/-- One row produced by `RfqRecsParser` (solicitations.py:86); every field is
initialised by the parser, so all are plain strings. -/
structure WebRecord where
  item_number : String := ""
  nsn_part_number : String := ""
  nomenclature : String := ""
  technical_documents : List TechDoc := []
  solicitation : String := ""
  solicitation_url : String := ""
  setaside_type : String := ""
  rfq_quote_status : String := ""
  purchase_request : String := ""
  pr_number : String := ""
  quantity : String := ""
  issued : String := ""
  return_by : String := ""
deriving DecidableEq, Repr

/-- A CLIN dict as built by the merge.  Keys that some passes leave absent
(`unit_of_issue`, `unit_price`, `delivery_days`, `technical_documents`,
`approved_sources`) are `Option`s with `none` for "absent"; the code only
ever reads them through `.get`, which conflates absent and `None`. -/
structure Clin where
  clin : Option String
  nsn : String
  part_number : String
  nomenclature : String
  pr_number : String
  quantity : Option Int
  unit_of_issue : Option String := none
  unit_price : Option ℚ := none
  delivery_days : Option Int := none
  technical_documents : Option (List TechDoc) := none
  approved_sources : Option (List ApprovedSourceOut) := none
deriving DecidableEq, Repr

/-- A solicitation dict as built by the merge. -/
structure Solicitation where
  solicitation_number : String
  clins : List Clin
  data_source : String
  solicitation_type : Option String := none
  small_business_setaside : Option String := none
  additional_clause_fillins : Option Bool := none
  return_by_date : Option String := none
  setaside_type : Option String := none
  rfq_quote_status : Option String := none
  issued_date : Option String := none
  /-- the `links` sub-dict holds only `solicitation_url`. -/
  links_solicitation_url : Option String := none
  setaside_percentage : Option ℚ := none
  amsc : Option String := none
  raw_batch_quote_data : Option (List BqRecord) := none
deriving DecidableEq, Repr

/-- `solicitations[sol_num_clean] = ...` works on an insertion-ordered
string-keyed dict. -/
abbrev SolMap := List (String × Solicitation)

/-- Dict lookup (first matching key). -/
def lookupSM (m : SolMap) (k : String) : Option Solicitation :=
  (m.find? (·.1 = k)).map (·.2)

/-- Dict assignment: replace in place if present, else append. -/
def setSM (m : SolMap) (k : String) (v : Solicitation) : SolMap :=
  match m with
  | [] => [(k, v)]
  | (k', v') :: rest => if k' = k then (k', v) :: rest else (k', v') :: setSM rest k v

/-- `if k not in d: d[k] = dflt` followed by `sol = d[k]`. -/
def getOrCreate (m : SolMap) (k : String) (dflt : Solicitation) :
    Solicitation × SolMap :=
  match lookupSM m k with
  | some s => (s, m)
  | none => (dflt, m ++ [(k, dflt)])

/-- The fresh solicitation dict each pass creates for an unseen key. -/
def newSolicitation (num source : String) : Solicitation :=
  { solicitation_number := num, clins := [], data_source := source }

/-- Append `v` to the (insertion-ordered) group of key `k`, as
`d.setdefault-like` grouping in the Python code does. -/
def addGroup {κ ν : Type} [DecidableEq κ] (l : List (κ × List ν)) (k : κ) (v : ν) :
    List (κ × List ν) :=
  match l with
  | [] => [(k, [v])]
  | (k', vs) :: rest => if k' = k then (k', vs ++ [v]) :: rest else (k', vs) :: addGroup rest k v

/-- Group a list by a key function, preserving first-appearance key order
and within-group order (Python's `if key not in d: d[key] = []` /
`d[key].append(...)` idiom). -/
def groupBy {κ ν : Type} [DecidableEq κ] (key : ν → κ) (l : List ν) : List (κ × List ν) :=
  l.foldl (fun acc v => addGroup acc (key v) v) []

/-- Find the first matching group. -/
def lookupGroup {κ ν : Type} [DecidableEq κ] (l : List (κ × List ν)) (k : κ) :
    Option (List ν) :=
  (l.find? (·.1 = k)).map (·.2)

/-- `for clin in sol['clins']: if p(clin): mutate clin; break` — update the
first matching element, or report that none matched. -/
def updateFirst {α : Type} (p : α → Bool) (f : α → α) : List α → Option (List α)
  | [] => none
  | c :: rest => if p c then some (f c :: rest) else (updateFirst p f rest).map (c :: ·)

/-- Pass 1, header update: `sol.update({...})` from the group's first record
(combined.py:569–576). -/
def bqHeader (sol : Solicitation) (records : List BqRecord) : Solicitation :=
  match records with
  | [] => sol
  | first :: _ =>
    { sol with
      solicitation_type := some first.solicitation_type
      small_business_setaside := some first.small_business_setaside
      additional_clause_fillins := some (first.additional_clause_fillins = "Y")
      return_by_date := parse_date first.return_by_date }

/-- Pass 1, the CLIN built from one batch-quote record (combined.py:579–601).
The record dict has no `nomenclature` key, so `record.get('nomenclature','')`
is always `''`. -/
def mkBqClin (record : BqRecord) : Clin :=
  let nsnRaw := record.nsn_part_number
  { clin := some (pyZfill 4 record.line_number)
    nsn := if nsnRaw ≠ "" then pyReplace nsnRaw "-" "" else ""
    part_number := nsnRaw
    nomenclature := clean_nomenclature ""
    pr_number := record.purchase_request
    quantity := _parse_int record.quantity
    unit_of_issue := some record.unit_of_issue
    unit_price := _parse_float record.unit_price
    delivery_days := _parse_int record.delivery_days
    approved_sources := some [] }

/-- Pass 1, per record: append the CLIN and retain the raw record
(combined.py:602–607). -/
def addBqClin (sol : Solicitation) (record : BqRecord) : Solicitation :=
  { sol with
    clins := sol.clins ++ [mkBqClin record]
    raw_batch_quote_data := some ((sol.raw_batch_quote_data.getD []) ++ [record]) }

/-- Pass 1, one `(sol_num, line_number)` group (combined.py:551–607). -/
def bqSeedStep (m : SolMap) (entry : (String × String) × List BqRecord) : SolMap :=
  let solNumClean := pyUpper (pyStrip entry.1.1)
  let g := getOrCreate m solNumClean (newSolicitation solNumClean "batch_quote")
  setSM g.2 solNumClean (entry.2.foldl addBqClin (bqHeader g.1 entry.2))

/-- Pass 2, enhancing a matched CLIN (combined.py:679–690): technical
documents are overwritten; nomenclature / PR number / quantity are filled
only when falsy. -/
def enhanceWebClin (r : WebRecord) (cleanNom cleanPr : String) (finalQty : Option Int)
    (c : Clin) : Clin :=
  let c := { c with technical_documents := some r.technical_documents }
  let c := if c.nomenclature = "" then { c with nomenclature := cleanNom } else c
  let c := if c.pr_number = "" then { c with pr_number := cleanPr } else c
  if c.quantity.getD 0 = 0 then { c with quantity := finalQty } else c

/-- Pass 2, the CLIN appended when no NSN matches (combined.py:692–702). -/
def mkWebClin (r : WebRecord) (cleanN rawNsn cleanNom cleanPr : String)
    (finalQty : Option Int) : Clin :=
  { clin := none
    nsn := cleanN
    part_number := rawNsn
    nomenclature := cleanNom
    pr_number := cleanPr
    quantity := finalQty
    technical_documents := some r.technical_documents }

/-- Pass 2, the solicitation-level updates (combined.py:637–659): mark the
source combined, overwrite the web-authoritative fields, and fill
`return_by_date` only when currently falsy. -/
def webHeaderSol (sol : Solicitation) (r : WebRecord) : Solicitation :=
  let sol :=
    if sol.data_source = "batch_quote" then
      { sol with data_source := "batch_quote_and_web_scrape" }
    else sol
  let sol :=
    { sol with
      setaside_type := some r.setaside_type
      rfq_quote_status := some r.rfq_quote_status
      issued_date := parse_date r.issued
      links_solicitation_url := some r.solicitation_url }
  if (sol.return_by_date.getD "") ≠ "" then sol
  else { sol with return_by_date := parse_date r.return_by }

/-- Pass 2, the CLIN-list update (combined.py:661–702): match the first CLIN
with the cleaned NSN and enhance it, or append a new CLIN. -/
def webClinsUpdate (clins : List Clin) (r : WebRecord) : List Clin :=
  let rawNsn := r.nsn_part_number
  let cleanN := clean_nsn rawNsn
  let pq := extract_quantity_from_purchase_request r.purchase_request
  let cleanNom := clean_nomenclature r.nomenclature
  let finalQty :=
    match pq.2 with
    | some q => some q
    | none => _parse_int r.quantity
  match updateFirst (·.nsn = cleanN) (enhanceWebClin r cleanNom pq.1 finalQty) clins with
  | some clins1 => clins1
  | none => clins ++ [mkWebClin r cleanN rawNsn cleanNom pq.1 finalQty]

/-- Pass 2, the whole per-record mutation of one solicitation dict
(combined.py:635–702): the header updates touch no CLIN and the CLIN updates
touch no header field, so the two parts compose. -/
def webOverlaySol (sol : Solicitation) (r : WebRecord) : Solicitation :=
  { webHeaderSol sol r with clins := webClinsUpdate sol.clins r }

/-- Pass 2, one web record (combined.py:610–634). -/
def webStep (m : SolMap) (r : WebRecord) : SolMap :=
  let solNum := pyStrip r.solicitation
  if solNum = "" then m
  else
    let k := pyUpper (pyStrip solNum)
    let g := getOrCreate m k (newSolicitation k "web_scrape")
    setSM g.2 k (webOverlaySol g.1 r)

/-- Pass 3, enhancing a matched CLIN (combined.py:749–758). -/
def enhanceInClin (r : InRecord) (c : Clin) : Clin :=
  let c :=
    if c.nomenclature = "" then { c with nomenclature := clean_nomenclature r.nomenclature }
    else c
  let c := if c.pr_number = "" then { c with pr_number := r.purchase_request } else c
  let c := if c.quantity.getD 0 = 0 then { c with quantity := _parse_int r.quantity } else c
  if (c.unit_of_issue.getD "") = "" then { c with unit_of_issue := some r.unit_issue } else c

/-- Pass 3, the CLIN appended when no NSN matches (combined.py:759–770). -/
def mkInClin (r : InRecord) (nsnClean : String) : Clin :=
  { clin := none
    nsn := nsnClean
    part_number := r.nsn_part_number
    nomenclature := clean_nomenclature r.nomenclature
    pr_number := r.purchase_request
    quantity := _parse_int r.quantity
    unit_of_issue := some r.unit_issue }

/-- Pass 3, the solicitation-level updates (combined.py:719–737).  Note the
unconditional `sol.update({...})` — unlike pass 2, `return_by_date` is
overwritten even when already set. -/
def inHeaderSol (sol : Solicitation) (r : InRecord) : Solicitation :=
  let setaside := decode_setaside r.small_business_setaside
  let pctStr := pyStrip r.setaside_percentage
  let pct : ℚ :=
    if pctStr ≠ "" ∧ pyIsDigit pctStr then (digitsToNat pctStr.data : ℚ)
    else (setaside.percentage : ℚ)
  { sol with
    small_business_setaside := some setaside.code
    setaside_percentage := some pct
    setaside_type := some setaside.description
    return_by_date := parse_date r.return_by_date fmtINfile
    amsc := some r.amsc }

/-- Pass 3, the CLIN-list update (combined.py:739–770). -/
def inClinsUpdate (clins : List Clin) (r : InRecord) : List Clin :=
  let nsnClean := r.nsn_clean.getD (clean_nsn r.nsn_part_number)
  match updateFirst (·.nsn = nsnClean) (enhanceInClin r) clins with
  | some clins1 => clins1
  | none => clins ++ [mkInClin r nsnClean]

/-- Pass 3, the whole per-record mutation of one solicitation dict
(combined.py:717–770). -/
def inOverlaySol (sol : Solicitation) (r : InRecord) : Solicitation :=
  { inHeaderSol sol r with clins := inClinsUpdate sol.clins r }

/-- Pass 3, one IN record (combined.py:705–716): keyed by the *raw*
solicitation number. -/
def inStep (m : SolMap) (r : InRecord) : SolMap :=
  let k := r.solicitation_number
  let g := getOrCreate m k (newSolicitation k "batch_files")
  setSM g.2 k (inOverlaySol g.1 r)

/-- Pass 4, per CLIN (combined.py:773–793): attach the full approved-source
group for the CLIN's NSN, and replace a purely numeric (or empty) part
number with the first source's supplier part number. -/
def attachAsClin (asLookup : List (String × List AsRecord)) (c : Clin) : Clin :=
  if c.nsn ≠ "" then
    match lookupGroup asLookup c.nsn with
    | some sources =>
      let approved := sources.map fun s =>
        ({ supplier_cage_code := s.supplier_cage_code
           supplier_part_number := s.supplier_part_number } : ApprovedSourceOut)
      let c1 := { c with approved_sources := some approved }
      match approved with
      | [] => c1
      | a :: _ =>
        let currentPart := pyReplace c1.part_number "-" ""
        if pyIsDigit currentPart ∨ c1.part_number = "" then
          { c1 with part_number := a.supplier_part_number }
        else c1
    | none => c
  else c

/-- Pass 4 over the whole map. -/
def mergePass4 (asLookup : List (String × List AsRecord)) (m : SolMap) : SolMap :=
  m.map fun e => (e.1, { e.2 with clins := e.2.clins.map (attachAsClin asLookup) })

/-- `DIBBSUnifiedScraper.merge_data_sources` (combined.py:510): seed from
batch-quote groups, overlay web rows, overlay IN rows, attach approved
sources, and return the dict's values in insertion order.  (The `in_lookup`
dict built at combined.py:524 is dead code — pass 3 iterates `in_data`
directly — and the `debug_stats` counters only feed log output.) -/
def merge_data_sources (webData : List WebRecord) (inData : List InRecord)
    (bqData : List BqRecord) (asData : List AsRecord) : List Solicitation :=
  let bqLookup := groupBy (fun r => (r.solicitation_number, r.line_number)) bqData
  let asLookup := groupBy (fun r => pyReplace r.nsn "-" "") asData
  let m1 := bqLookup.foldl bqSeedStep []
  let m2 := webData.foldl webStep m1
  let m3 := inData.foldl inStep m2
  (mergePass4 asLookup m3).map (·.2)

/-! ### The paginated crawler: `dibbs_solicitations_scrape` (combined.py:147)

The network and the HTML parsing are abstracted into `pages : Nat → List α`
(the rows `RfqRecsParser` yields for the page requested with that page
number) and `countDecl : Nat` (the declared record count parsed from page 1;
the counts of later pages are discarded by the code).  Besides the
accumulated rows, the model returns the list of page numbers requested by
POST inside the loop, which is the observable the pagination claims are
about.  `dibbs_solicitations` (solicitations.py:314) is line-for-line the
same loop. -/

/-- `test_mode and max_records and len(rows) >= max_records`
(`max_records` is falsy when `None` or `0`). -/
def checkLimit (testMode : Bool) (maxRecords : Option Nat) (nrows : Nat) : Bool :=
  testMode &&
    match maxRecords with
    | some m => m ≠ 0 && nrows ≥ m
    | none => false

/-- The `while len(rows) < count and len(rows_more) > 0` loop
(combined.py:179–211): check the test limit, request the next page, extend
the rows, and continue.  Every continued iteration got a non-empty batch
while still below `countDecl`, so the remaining iteration count is bounded
by `countDecl - rows.length`; `fuel` is that bound, making the recursion
structural (the zero branch is unreachable from the call site). -/
def crawlLoop {α : Type} (pages : Nat → List α) (countDecl : Nat) (testMode : Bool)
    (maxRecords : Option Nat) (fuel : Nat) (rows prevBatch : List α) (number : Nat) :
    List α × List Nat :=
  if rows.length < countDecl ∧ prevBatch.isEmpty = false then
    if checkLimit testMode maxRecords rows.length then (rows.take (maxRecords.getD 0), [])
    else
      let batch := pages (number + 1)
      if batch.isEmpty then (rows ++ batch, [number + 1])
      else
        match fuel with
        | 0 => (rows, [])
        | fuel + 1 =>
          let r := crawlLoop pages countDecl testMode maxRecords fuel
            (rows ++ batch) batch (number + 1)
          (r.1, (number + 1) :: r.2)
  else (rows, [])

/-- `dibbs_solicitations_scrape(config, day, test_mode, max_records)`
(combined.py:147): fetch page 1, maybe stop at the test limit, then loop.
Returns `(rows, requested page numbers)`. -/
def dibbs_solicitations_scrape {α : Type} (pages : Nat → List α) (countDecl : Nat)
    (testMode : Bool) (maxRecords : Option Nat) : List α × List Nat :=
  let rows := pages 1
  if checkLimit testMode maxRecords rows.length then (rows.take (maxRecords.getD 0), [])
  else crawlLoop pages countDecl testMode maxRecords countDecl rows rows 1

/-! ### Session establishment: `FormParser` and `dibbs_session`
(solicitations.py:46 and 292)

`html.parser.HTMLParser` delivers the page to `FormParser` as a stream of
tag events; the event stream is the model's input.  `FormParser` only
implements `handle_starttag`/`handle_endtag`, so text data is ignored. -/

/-- An event of Python's `HTMLParser` as seen by `FormParser`. -/
inductive HtmlEvent where
  | startTag (name : String) (attrs : List (String × String))
  | endTag (name : String)
  | text (s : String)
deriving DecidableEq, Repr

/-- `dict(attrs)[k]`: the last occurrence of a duplicated attribute wins. -/
def attrsDict (attrs : List (String × String)) (k : String) : Option String :=
  (attrs.reverse.find? (·.1 = k)).map (·.2)

/-- Assignment on a generic insertion-ordered string-keyed dict
(`form_data[name] = value`). -/
def dictSetStr (m : List (String × String)) (k v : String) : List (String × String) :=
  match m with
  | [] => [(k, v)]
  | (k', v') :: rest => if k' = k then (k', v) :: rest else (k', v') :: dictSetStr rest k v

/-- The mutable state of `FormParser`. -/
structure FormState where
  form_data : List (String × String) := []
  form_action : String := ""
  form_method : String := "get"
  parsing_form : Bool := false
deriving DecidableEq, Repr

/-- One `FormParser` event handler step (solicitations.py:66–80).  A `form`
start tag without an `action` or `method` attribute raises `KeyError`
(`attrs['action']`), modelled as `Except.error`. -/
def formStep (st : FormState) (ev : HtmlEvent) : Except String FormState :=
  match ev with
  | .startTag name attrs =>
    if name = "form" then
      match attrsDict attrs "action", attrsDict attrs "method" with
      | some action, some method =>
        .ok { form_data := [], form_action := action,
              form_method := pyUpper method, parsing_form := true }
      | _, _ => .error "KeyError"
    else if st.parsing_form ∧ name = "input" then
      match attrsDict attrs "name", attrsDict attrs "value" with
      | some n, some v => .ok { st with form_data := dictSetStr st.form_data n v }
      | _, _ => .ok st
    else .ok st
  | .endTag name =>
    if name = "form" then .ok { st with parsing_form := false } else .ok st
  | .text _ => .ok st

/-- `FormParser.parse(page)` (solicitations.py:50): run the event handlers
from the initial state and return
`(form_data, form_action.replace('./',''), form_method)`. -/
def formParse (page : List HtmlEvent) :
    Except String (List (String × String) × String × String) := do
  let st ← page.foldlM formStep {}
  .ok (st.form_data, pyReplace st.form_action "./" "", st.form_method)

/-- An HTTP request issued by the session handshake. -/
inductive Request where
  | get (url : String)
  | post (url : String) (data : List (String × String))
deriving DecidableEq, Repr

/-- The network's behaviour during the handshake: the decoded landing page
(or a raised request error) and the outcome of the form POST. -/
structure Net where
  warningPage : Except String (List HtmlEvent)
  postResult : Except String Unit

/-- `dibbs_session(host)` (solicitations.py:292): GET the warning page,
parse its form, POST the field set back, return the session.  There is no
retry loop and no exception handling, so the first raised error propagates.
The observable result of a successful handshake is the pair of requests
issued (the cookie jar itself lives inside `requests.Session`). -/
def dibbs_session (host : String) (net : Net) : Except String (List Request) := do
  let page ← net.warningPage
  let (formData, formAction, _) ← formParse page
  let _ ← net.postResult
  .ok [Request.get (host ++ "dodwarning.aspx?goto=/"),
       Request.post (host ++ formAction) formData]

/-! ### Spec-side definitions and concrete inputs used by the claims -/

/-- The specification's cleaned solicitation identifier: trimmed, uppercased,
hyphen-free (spec §3).  This is the spec's wording; the code's actual keys
are compared against it. -/
def specCleanSolNum (s : String) : String :=
  pyReplace (pyUpper (pyStrip s)) "-" ""

/-- The full separator-implied field list of a batch-quote line, per the
spec's description of the tokenizer (quote toggle, split at unquoted commas)
but *without* the code's final-field non-emptiness filter: the field after
the last unquoted separator is always kept. -/
def specBqFullFields (line : String) : List String :=
  let r := bqScan line.data false []
  r.1 ++ [(⟨r.2.reverse⟩ : String)]

/-- A batch-quote record with the given solicitation number, line number and
NSN (the other fields are representative file values). -/
def mkBqRow (sol line nsn : String) : BqRecord :=
  { solicitation_number := sol
    solicitation_type := "R"
    small_business_setaside := "Y"
    additional_clause_fillins := "N"
    return_by_date := "07/01/2025"
    line_number := line
    purchase_request := "PR100"
    nsn_part_number := nsn
    unit_of_issue := "EA"
    quantity := "25"
    unit_price := "10.50"
    delivery_days := "90"
    nsn_clean := if nsn ≠ "" then some (pyReplace nsn "-" "") else none }

/-- A web row with the given solicitation number and (already hyphen-free,
as `RfqRecsParser` emits them) NSN. -/
def mkWebRow (sol nsn : String) : WebRecord :=
  { item_number := "1"
    nsn_part_number := nsn
    nomenclature := "WIDGET  ASSY"
    technical_documents := [⟨"Drawing", "http://x/d.pdf"⟩]
    solicitation := sol
    solicitation_url := "http://x/s.pdf"
    setaside_type := "Total Small Business"
    rfq_quote_status := "Open"
    purchase_request := "PR200 QTY: 1,200"
    pr_number := ""
    quantity := ""
    issued := "06-03-2025"
    return_by := "07-01-2025" }

/-- An IN-file record with the given solicitation number, NSN and raw
return-by field. -/
def mkInRow (sol nsn rbd : String) : InRecord :=
  { solicitation_number := sol
    nsn_part_number := nsn
    purchase_request := "PR300"
    return_by_date := rbd
    file_name := "f.pdf"
    quantity := "40"
    unit_issue := "EA"
    nomenclature := "BOLT"
    buyer_code := "B1"
    amsc := "G"
    item_type := "1"
    small_business_setaside := "Y"
    setaside_percentage := ""
    nsn_clean := if nsn ≠ "" then some (pyReplace nsn "-" "") else none }

/-- An approved-source record. -/
def mkAsRow (nsn cage part : String) : AsRecord :=
  { nsn := nsn, supplier_cage_code := cage, supplier_part_number := part
    supplier_name := "ACME" }

/-- The CLIN of the solicitation produced by the C4 witness merge run. -/
def c4DemoClin : Clin :=
  { clin := none
    nsn := "1234567890123"
    part_number := "P-100"
    nomenclature := "WIDGET ASSY"
    pr_number := "PR200"
    quantity := some 1200
    technical_documents := some [⟨"Drawing", "http://x/d.pdf"⟩]
    approved_sources := some [⟨"C1", "P-100"⟩, ⟨"C2", "P-200"⟩] }

/-- The solicitation produced by the C4 witness merge run. -/
def c4DemoSol : Solicitation :=
  { solicitation_number := "SPE2"
    clins := [c4DemoClin]
    data_source := "web_scrape"
    return_by_date := some "2025-07-01"
    setaside_type := some "Total Small Business"
    rfq_quote_status := some "Open"
    issued_date := some "2025-06-03"
    links_solicitation_url := some "http://x/s.pdf" }

/-- A CLIN with every enrichable field already non-empty, for the C2
witness. -/
def c2DemoClin : Clin :=
  { clin := some "0001"
    nsn := "1234567890123"
    part_number := "1234-56-789-0123"
    nomenclature := "BOLT,MACHINE"
    pr_number := "PR100"
    quantity := some 25
    unit_of_issue := some "EA"
    unit_price := some 10
    delivery_days := some 90
    approved_sources := some [] }

/-- A solicitation holding `c2DemoClin`, for the C2 witness. -/
def c2DemoSol : Solicitation :=
  { solicitation_number := "SPE1C1"
    clins := [c2DemoClin]
    data_source := "batch_quote"
    return_by_date := some "2025-07-01" }

/-- Fields of a CLIN that pass 2 must not clobber when the CLIN matched by
NSN already carries them: the fill-only-if-empty fields keep non-falsy
values, and the remaining scalar fields are untouched (technical documents
are excluded — pass 2 overwrites them). -/
def clinPreservedWeb (c cNew : Clin) : Prop :=
  (c.nomenclature ≠ "" → cNew.nomenclature = c.nomenclature) ∧
  (c.pr_number ≠ "" → cNew.pr_number = c.pr_number) ∧
  (c.quantity.getD 0 ≠ 0 → cNew.quantity = c.quantity) ∧
  cNew.clin = c.clin ∧ cNew.nsn = c.nsn ∧ cNew.part_number = c.part_number ∧
  cNew.unit_of_issue = c.unit_of_issue ∧ cNew.unit_price = c.unit_price ∧
  cNew.delivery_days = c.delivery_days ∧ cNew.approved_sources = c.approved_sources

/-- Fields of a CLIN that pass 3 must not clobber (pass 3 also fills
`unit_of_issue` only if falsy and leaves technical documents alone). -/
def clinPreservedIn (c cNew : Clin) : Prop :=
  (c.nomenclature ≠ "" → cNew.nomenclature = c.nomenclature) ∧
  (c.pr_number ≠ "" → cNew.pr_number = c.pr_number) ∧
  (c.quantity.getD 0 ≠ 0 → cNew.quantity = c.quantity) ∧
  (c.unit_of_issue.getD "" ≠ "" → cNew.unit_of_issue = c.unit_of_issue) ∧
  cNew.clin = c.clin ∧ cNew.nsn = c.nsn ∧ cNew.part_number = c.part_number ∧
  cNew.unit_price = c.unit_price ∧ cNew.delivery_days = c.delivery_days ∧
  cNew.technical_documents = c.technical_documents ∧
  cNew.approved_sources = c.approved_sources

/-- The page oracle of the C6 witness: pages 1 and 2 have one row each,
page 3 is empty. -/
def c6Pages : Nat → List Nat :=
  fun n => if n = 1 then [10] else if n = 2 then [20] else []

/-- No `<form>` start tag among the events of a page. -/
def noFormTag (evs : List HtmlEvent) : Bool :=
  evs.all fun ev =>
    match ev with
    | .startTag n _ => n ≠ "form"
    | _ => true

/-- A landing page with markup but no consent form. -/
def c9NoFormPage : List HtmlEvent :=
  [.startTag "html" [], .startTag "div" [("class", "warn")],
   .text "Use of this system constitutes consent.", .endTag "div", .endTag "html"]

/-- A network where the landing page loads (without a form) and the POST
succeeds. -/
def c9Net : Net :=
  { warningPage := .ok c9NoFormPage, postResult := .ok () }

/-- The map invariant maintained by every merge pass: keys are distinct and
each stored solicitation's number equals its key. -/
def solMapInv (m : SolMap) : Prop :=
  (m.map Prod.fst).Nodup ∧ ∀ p ∈ m, (p.2).solicitation_number = p.1

/-! ## Theorems -/

/-- C1 counterexample: `merge_data_sources` does not key by the spec's
cleaned (hyphen-free) identifier.  Two batch-quote rows whose solicitation
numbers differ only by a hyphen — and therefore clean to the same spec
identifier — produce two distinct Solicitations in one merge run, because
the batch-quote pass keys only by `strip().upper()` and keeps hyphens. -/
theorem c1_counterexample :
    ((merge_data_sources [] []
        [mkBqRow "SPE-1C1" "1" "1234-56-789-0123", mkBqRow "SPE1C1" "1" "1234-56-789-0123"]
        []).map (·.solicitation_number)) = ["SPE-1C1", "SPE1C1"]
    ∧ specCleanSolNum "SPE-1C1" = specCleanSolNum "SPE1C1"
    ∧ ("SPE-1C1" : String) ≠ "SPE1C1" := by
  refine ⟨?_, by decide, by decide⟩
  decide

/-- C2 counterexample: a non-empty solicitation-level field *is* replaced by
null in a later pass.  The batch-quote pass sets `return_by_date` to
`2025-07-01`; the index-file pass then overwrites it unconditionally, and
since the IN row's date field is empty, `parse_date` yields `None` and the
accumulated date is discarded. -/
theorem c2_counterexample :
    (((groupBy (fun r => (r.solicitation_number, r.line_number))
          [mkBqRow "SPE1C1" "1" "1234-56-789-0123"]).foldl bqSeedStep []).map
        fun p => (p.2).return_by_date) = [some "2025-07-01"]
    ∧ ((merge_data_sources [] [mkInRow "SPE1C1" "" ""]
          [mkBqRow "SPE1C1" "1" "1234-56-789-0123"] []).map (·.return_by_date)) = [none] := by
  refine ⟨by decide, by decide⟩

/-- Two strings are equal when their character lists are. -/
theorem string_eq_of_data {a b : String} (h : a.data = b.data) : a = b := by
  cases a
  cases b
  exact congrArg String.mk h

/-- `pyStrip` unfolded to Mathlib's right-drop. -/
theorem pyStrip_eq_rdrop (s : String) :
    (pyStrip s).data
      = List.rdropWhile Char.isWhitespace (s.data.dropWhile Char.isWhitespace) := rfl

/-- Python's `strip()` is idempotent. -/
theorem pyStrip_idem (s : String) : pyStrip (pyStrip s) = pyStrip s := by
  apply string_eq_of_data
  rw [pyStrip_eq_rdrop (pyStrip s), pyStrip_eq_rdrop s]
  have hdw : (List.rdropWhile Char.isWhitespace
      (s.data.dropWhile Char.isWhitespace)).dropWhile Char.isWhitespace
      = List.rdropWhile Char.isWhitespace (s.data.dropWhile Char.isWhitespace) := by
    rw [List.dropWhile_eq_self_iff]
    intro hl
    obtain ⟨t, ht⟩ := List.rdropWhile_prefix Char.isWhitespace
      (s.data.dropWhile Char.isWhitespace)
    have hxlen : 0 < (s.data.dropWhile Char.isWhitespace).length := by
      rw [← ht, List.length_append]
      omega
    have h1 : (s.data.dropWhile Char.isWhitespace).get? 0
        = (List.rdropWhile Char.isWhitespace (s.data.dropWhile Char.isWhitespace)).get? 0 := by
      conv_lhs => rw [← ht]
      exact List.get?_append hl
    have hy := List.get?_eq_get (l := List.rdropWhile Char.isWhitespace
      (s.data.dropWhile Char.isWhitespace)) (n := 0) hl
    have hx := List.get?_eq_get (l := s.data.dropWhile Char.isWhitespace) (n := 0) hxlen
    rw [hy, hx] at h1
    have h2 : (List.rdropWhile Char.isWhitespace
        (s.data.dropWhile Char.isWhitespace)).get ⟨0, hl⟩
        = (s.data.dropWhile Char.isWhitespace).get ⟨0, hxlen⟩ :=
      (Option.some.inj h1).symm
    rw [h2]
    exact List.dropWhile_get_zero_not _ _ hxlen
  rw [hdw, List.rdropWhile_idempotent]

/-- Pass 4 with no approved-source rows leaves every CLIN unchanged. -/
theorem attachAsClin_nil (c : Clin) : attachAsClin [] c = c := by
  unfold attachAsClin
  by_cases h : c.nsn ≠ ""
  · rw [if_pos h]
    rfl
  · rw [if_neg h]

/-- When no element matches, `updateFirst` reports failure. -/
theorem updateFirst_eq_none {α : Type} (p : α → Bool) (f : α → α) :
    ∀ l : List α, (∀ c ∈ l, p c = false) → updateFirst p f l = none := by
  intro l
  induction l with
  | nil => intro _; rfl
  | cons a t ih =>
    intro h
    unfold updateFirst
    rw [h a (List.mem_cons_self a t)]
    simp only [Bool.false_eq_true, if_false]
    rw [ih fun c hc => h c (List.mem_cons_of_mem a hc)]
    rfl

/-- C3: for every batch-quote row with solicitation number `SPE1C1`, line
`1` and NSN `1234-56-789-0123` (other fields arbitrary) and every web row
whose solicitation number cleans to the same identifier but whose NSN field
yields a different cleaned NSN, the merge returns exactly one Solicitation,
and it has exactly two CLINs: the batch-quote CLIN with zero-padded line
number `0001` and NSN `1234567890123`, plus one new web CLIN with no line
number.  (The web row's identifier is cleaned the way the code does —
`strip().upper()`; web rows reach the merge hyphen-free because
`RfqRecsParser` strips hyphens.) -/
theorem c3_two_clins (b : BqRecord) (w : WebRecord)
    (hbs : b.solicitation_number = "SPE1C1") (hbl : b.line_number = "1")
    (hbn : b.nsn_part_number = "1234-56-789-0123")
    (hws : pyUpper (pyStrip w.solicitation) = "SPE1C1")
    (hwn : clean_nsn w.nsn_part_number ≠ "1234567890123") :
    (merge_data_sources [w] [] [b] []).map
        (fun s => (s.solicitation_number, s.clins.map fun c => (c.clin, c.nsn)))
      = [("SPE1C1",
          [(some "0001", "1234567890123"), (none, clean_nsn w.nsn_part_number)])] := by
  obtain ⟨bs, bty, bsb, bacf, brbd, bln, bpr, bnsn, buoi, bqt, bup, bdd, bnc⟩ := b
  simp only at hbs hbl hbn
  subst hbs
  subst hbl
  subst hbn
  have hss : pyStrip w.solicitation ≠ "" := by
    intro h
    rw [h] at hws
    exact absurd hws (by decide)
  have hk : pyUpper (pyStrip (pyStrip w.solicitation)) = "SPE1C1" := by
    rw [pyStrip_idem]
    exact hws
  set brec : BqRecord :=
    ⟨"SPE1C1", bty, bsb, bacf, brbd, "1", bpr, "1234-56-789-0123", buoi, bqt, bup, bdd,
      bnc⟩ with hbrec
  set solB : Solicitation :=
    addBqClin (bqHeader (newSolicitation "SPE1C1" "batch_quote") [brec]) brec with hsolB
  have hA : merge_data_sources [w] [] [brec] []
      = (mergePass4 [] (webStep (bqSeedStep [] (("SPE1C1", "1"), [brec])) w)).map (·.2) :=
    rfl
  have hB : bqSeedStep [] (("SPE1C1", "1"), [brec]) = [("SPE1C1", solB)] := rfl
  have hC : webStep [("SPE1C1", solB)] w = [("SPE1C1", webOverlaySol solB w)] := by
    unfold webStep
    rw [if_neg hss]
    simp only [hk]
    rfl
  have hclinsB : solB.clins = [mkBqClin brec] := rfl
  have hnsnB : (mkBqClin brec).nsn = "1234567890123" := by
    rw [hbrec]
    rfl
  have hclinB : (mkBqClin brec).clin = some "0001" := by
    rw [hbrec]
    rfl
  have hD : webClinsUpdate solB.clins w
      = solB.clins ++ [mkWebClin w (clean_nsn w.nsn_part_number) w.nsn_part_number
          (clean_nomenclature w.nomenclature)
          (extract_quantity_from_purchase_request w.purchase_request).1
          (match (extract_quantity_from_purchase_request w.purchase_request).2 with
           | some q => some q
           | none => _parse_int w.quantity)] := by
    simp only [webClinsUpdate]
    rw [updateFirst_eq_none]
    intro c hc
    rw [hclinsB, List.mem_singleton] at hc
    subst hc
    show decide ((mkBqClin brec).nsn = clean_nsn w.nsn_part_number) = false
    rw [decide_eq_false_iff_not, hnsnB]
    exact fun h => hwn h.symm
  have hnum : (webOverlaySol solB w).solicitation_number = "SPE1C1" := by
    show (webHeaderSol solB w).solicitation_number = "SPE1C1"
    simp only [webHeaderSol]
    split_ifs <;> rfl
  have hclins2 : (webOverlaySol solB w).clins = webClinsUpdate solB.clins w := rfl
  rw [hA, hB, hC]
  simp only [mergePass4, List.map_cons, List.map_nil, hnum, hclins2, hD]
  simp only [hclinsB, List.cons_append, List.nil_append, List.map_cons, List.map_nil,
    attachAsClin_nil, hclinB, hnsnB, mkWebClin]

/-- Witness for C3: the concrete batch-quote row (`SPE1C1`, line `1`, NSN
`1234-56-789-0123`) together with a web row for `SPE1C1` and NSN
`9999887776666` satisfies every hypothesis, and the merge yields the one
solicitation with its two CLINs. -/
theorem c3_witness :
    pyUpper (pyStrip (mkWebRow "SPE1C1" "9999887776666").solicitation) = "SPE1C1" ∧
      (merge_data_sources [mkWebRow "SPE1C1" "9999887776666"] []
            [mkBqRow "SPE1C1" "1" "1234-56-789-0123"] []).map
          (fun s => (s.solicitation_number, s.clins.map fun c => (c.clin, c.nsn)))
        = [("SPE1C1",
            [(some "0001", "1234567890123"),
             (none, clean_nsn (mkWebRow "SPE1C1" "9999887776666").nsn_part_number)])] :=
  ⟨by decide,
   c3_two_clins (mkBqRow "SPE1C1" "1" "1234-56-789-0123") (mkWebRow "SPE1C1" "9999887776666")
     rfl rfl rfl (by decide) (by decide)⟩

/-- C7 counterexample: the HTML row parser's QTY split and the merge-time
helper do *not* produce the same pair on every text.  On a lowercase PR the
parser uppercases (it splits `pr_line.upper()`), while the helper preserves
case; moreover the parser's quantity is the raw text `"1,200"`, the helper's
a parsed integer. -/
theorem c7_counterexample :
    rfqSplitPurchaseRequest "pr12345 QTY: 1,200" = ("PR12345", "1,200")
    ∧ extract_quantity_from_purchase_request "pr12345 QTY: 1,200" = ("pr12345", some 1200)
    ∧ (rfqSplitPurchaseRequest "pr12345 QTY: 1,200").1
        ≠ (extract_quantity_from_purchase_request "pr12345 QTY: 1,200").1 := by
  refine ⟨by decide, by decide, by decide⟩

/-- C7 amended: on the spec's example `"PR12345 QTY: 1,200"` the two
extraction paths agree on the PR number, but represent the quantity
differently — the parser keeps the raw token `"1,200"` while the merge
helper returns the integer `1200` (the comma-stripping integer parse of that
token); in general they also differ on letter case (see the
counterexample), so they are not identical. -/
theorem c7_example_agreement :
    rfqSplitPurchaseRequest "PR12345 QTY: 1,200" = ("PR12345", "1,200")
    ∧ extract_quantity_from_purchase_request "PR12345 QTY: 1,200" = ("PR12345", some 1200)
    ∧ _parse_int "1,200" = some 1200 := by
  refine ⟨by decide, by decide, by decide⟩

/-- C8 counterexample: a non-empty line far shorter than any usable record
length is *not* skipped by the fixed-width parser — Python slicing pads with
empties instead of raising, so the one-character line `"X"` contributes a
record (with solicitation number `"X"` and all other fields empty). -/
theorem c8_counterexample :
    ((parse_in_file "X").map (·.solicitation_number)) = ["X"]
    ∧ pyStrip "X" ≠ ""
    ∧ "X".data.length < 140 := by
  refine ⟨by decide, by decide, by decide⟩

/-- Skipping blank lines is the only filtering `parse_in_file` does: the
record count equals the non-blank line count. -/
theorem parse_in_file_length_aux {β : Type} (f : String → β) :
    ∀ ls : List String,
      (ls.filterMap fun l => if pyStrip l = "" then none else some (f l)).length
        = (ls.filter fun l => decide (pyStrip l ≠ "")).length := by
  intro ls
  induction ls with
  | nil => rfl
  | cons hd t ih =>
    by_cases hh : pyStrip hd = "" <;>
      simp [List.filterMap_cons, List.filter_cons, hh, ih]

/-- C8 amended: the fixed-width parser never skips a non-empty line, however
short — every line whose stripped form is non-empty contributes exactly one
record (fields beyond the line length default to empty), and no line aborts
the rest of the file: the record count always equals the non-blank line
count. -/
theorem c8_one_record_per_line (content : String) :
    (parse_in_file content).length
      = ((pySplitChar '\n' content).filter fun l => decide (pyStrip l ≠ "")).length := by
  unfold parse_in_file
  exact parse_in_file_length_aux inRecordOfLine _

/-- C10 counterexample: the tokenized record *can* end with an empty-string
column.  `"a,,"` ends with an unquoted comma, yet only the field after the
final separator is dropped — the tokenizer yields `["a", ""]`, whose last
column is the empty string. -/
theorem c10_counterexample :
    bqTokenize "a,," = ["a", ""] ∧ (bqTokenize "a,,").getLast? = some "" := by
  refine ⟨by decide, by decide⟩

/-- C10 amended: the batch-quote tokenizer equals the full separator-implied
field list with exactly its *last* field dropped when that field is empty
(so a line ending in an unquoted comma or an empty quoted field loses one
column relative to the separator count, interior empty fields are kept, and
the record may still end in an empty string when several trailing
separators occur). -/
theorem c10_drops_exactly_last_empty (line : String) :
    bqTokenize line =
      (if (specBqFullFields line).getLast? = some "" then (specBqFullFields line).dropLast
       else specBqFullFields line) := by
  unfold bqTokenize specBqFullFields
  cases h : bqScan line.data false [] with
  | mk ps fin =>
    cases fin with
    | nil =>
      have hlast : (ps ++ [(⟨([] : List Char).reverse⟩ : String)]).getLast? = some "" := by
        simp [List.getLast?_concat]
      simp [hlast, List.dropLast_concat]
    | cons a l =>
      have hne : (⟨l.reverse ++ [a]⟩ : String) ≠ "" := by
        intro hh
        have hdata : l.reverse ++ [a] = [] := congrArg String.data hh
        simp at hdata
      have hlast : (ps ++ [(⟨l.reverse ++ [a]⟩ : String)]).getLast? ≠ some "" := by
        simp [List.getLast?_concat, hne]
      simp [hlast, hne]

/-- Inside a double-quote run, the batch-quote scanner copies every
character (commas included) into the current field. -/
theorem bqScan_quoted_run (u : List Char) :
    ∀ (rest cur : List Char), (∀ c ∈ u, c ≠ '"') →
      bqScan (u ++ rest) true cur = bqScan rest true (u.reverse ++ cur) := by
  induction u with
  | nil => intro rest cur _; simp
  | cons c t ih =>
    intro rest cur hq
    have hc : c ≠ '"' := hq c (List.mem_cons_self c t)
    have hrec := ih rest (c :: cur) fun x hx => hq x (List.mem_cons_of_mem c hx)
    show bqScan (c :: (t ++ rest)) true cur = _
    rw [show bqScan (c :: (t ++ rest)) true cur = bqScan (t ++ rest) true (c :: cur) from by
      simp [bqScan, hc]]
    rw [hrec]
    simp

/-- A whole quoted field followed by an unquoted comma is emitted as one
field by the batch-quote scanner. -/
theorem bqScan_quoted_field (u rest cur : List Char) (hq : ∀ c ∈ u, c ≠ '"') :
    bqScan ('"' :: (u ++ '"' :: ',' :: rest)) false cur
      = ((⟨(u.reverse ++ cur).reverse⟩ : String) :: (bqScan rest false []).1,
         (bqScan rest false []).2) := by
  have h1 : bqScan ('"' :: (u ++ '"' :: ',' :: rest)) false cur
      = bqScan (u ++ '"' :: ',' :: rest) true cur := by
    simp [bqScan]
  rw [h1, bqScan_quoted_run u _ cur hq]
  simp [bqScan]

/-- `splitOnPred` never returns the empty list. -/
theorem splitOnPred_ne_nil (p : Char → Bool) (l : List Char) : splitOnPred p l ≠ [] := by
  induction l with
  | nil => simp [splitOnPred]
  | cons c rest ih =>
    simp only [splitOnPred]
    by_cases hc : p c
    · simp [hc]
    · cases hh : splitOnPred p rest with
      | nil => exact absurd hh ih
      | cons h t => simp [hc, hh]

/-- The first piece of `splitOnPred` is the run before the first
separator. -/
theorem splitOnPred_headD (p : Char → Bool) (l : List Char) :
    (splitOnPred p l).headD [] = l.takeWhile fun c => !(p c) := by
  induction l with
  | nil => rfl
  | cons c rest ih =>
    simp only [splitOnPred, List.takeWhile]
    by_cases hc : p c
    · simp [hc]
    · cases hh : splitOnPred p rest with
      | nil => exact absurd hh (splitOnPred_ne_nil p rest)
      | cons h t =>
        rw [hh] at ih
        simp [hc, hh]
        simpa using ih

/-- Every character of a `pyStripChar` result occurs in the input. -/
theorem pyStripChar_data_mem (ch : Char) (s : String) :
    ∀ a ∈ (pyStripChar ch s).data, a ∈ s.data := by
  intro a ha
  unfold pyStripChar at ha
  simp only [List.mem_reverse] at ha
  have ha2 := (List.dropWhile_sublist (l := (s.data.dropWhile (· = ch)).reverse)
    (p := (· = ch))).mem ha
  simp only [List.mem_reverse] at ha2
  exact (List.dropWhile_sublist (l := s.data) (p := (· = ch))).mem ha2

/-- The first column the approved-sources tokenization produces never
contains a comma (it splits at *every* comma, quoted or not). -/
theorem asTokenize_head_no_comma (line : String) :
    ',' ∉ ((asTokenize line).headD "").data := by
  intro hmem
  unfold asTokenize pySplitChar at hmem
  cases hh : splitOnPred (· = ',') line.data with
  | nil => exact absurd hh (splitOnPred_ne_nil _ _)
  | cons h0 t0 =>
    rw [hh] at hmem
    simp only [List.map_cons, List.headD_cons] at hmem
    have hmem2 := pyStripChar_data_mem '"' ⟨h0⟩ ',' hmem
    have hh0 : h0 = line.data.takeWhile fun c => !(c = ',' : Bool) := by
      have := splitOnPred_headD (· = ',') line.data
      rw [hh] at this
      simpa using this
    rw [hh0] at hmem2
    have := List.mem_takeWhile_imp hmem2
    simp at this

/-- C5 counterexample: the two parsers do not share the quote-aware
tokenizer.  On the line `"A,B",C,D` the approved-sources parser naively
splits at the quoted comma (yielding NSN `A`, CAGE `B`, part `C`, name `D`),
while the batch-quote tokenizer keeps `A,B` as a single column. -/
theorem c5_counterexample :
    parse_as_file "\"A,B\",C,D"
      = [{ nsn := "A", supplier_cage_code := "B", supplier_part_number := "C",
           supplier_name := "D" }]
    ∧ bqTokenize "\"A,B\",C,D" = ["A,B", "C", "D"]
    ∧ asTokenize "\"A,B\",C,D" ≠ bqTokenize "\"A,B\",C,D" := by
  refine ⟨by decide, by decide, by decide⟩

/-- C5 amended: only the batch-quote parser implements the character-level
quote-aware tokenizer — a quoted field (no inner quote characters) followed
by an unquoted comma is kept as one column, commas inside it treated as
literal; the approved-sources parser instead splits at every comma and
strips surrounding quotes, so whenever the quoted field contains a comma its
first column differs from the quoted field. -/
theorem c5_only_bq_quote_aware (u rest : String) (hq : ∀ c ∈ u.data, c ≠ '"') :
    bqTokenize ⟨'"' :: (u.data ++ '"' :: ',' :: rest.data)⟩ = u :: bqTokenize rest
    ∧ (',' ∈ u.data →
        (asTokenize ⟨'"' :: (u.data ++ '"' :: ',' :: rest.data)⟩).headD "" ≠ u) := by
  constructor
  · show (fun r => if r.2 ≠ [] then r.1 ++ [(⟨r.2.reverse⟩ : String)] else r.1)
        (bqScan ('"' :: (u.data ++ '"' :: ',' :: rest.data)) false []) = _
    rw [bqScan_quoted_field u.data rest.data [] hq]
    simp only [List.append_nil, List.reverse_reverse]
    show (if (bqScan rest.data false []).2 ≠ [] then
            (u :: (bqScan rest.data false []).1)
              ++ [(⟨(bqScan rest.data false []).2.reverse⟩ : String)]
          else u :: (bqScan rest.data false []).1) = _
    unfold bqTokenize
    by_cases hfin : (bqScan rest.data false []).2 = [] <;> simp [hfin]
  · intro hcomma heq
    have hno := asTokenize_head_no_comma ⟨'"' :: (u.data ++ '"' :: ',' :: rest.data)⟩
    rw [heq] at hno
    exact hno hcomma

/-- C5 witness: the amended theorem at the spec's own example `"A,B",C,D`. -/
theorem c5_witness :
    (∀ c ∈ ("A,B" : String).data, c ≠ '"')
    ∧ bqTokenize ⟨'"' :: (("A,B" : String).data ++ '"' :: ',' :: ("C,D" : String).data)⟩
        = "A,B" :: bqTokenize "C,D"
    ∧ ((',' ∈ ("A,B" : String).data) →
        (asTokenize ⟨'"' :: (("A,B" : String).data ++ '"' :: ',' :: ("C,D" : String).data)⟩).headD ""
          ≠ "A,B") := by
  refine ⟨by decide, (c5_only_bq_quote_aware "A,B" "C,D" (by decide)).1,
    (c5_only_bq_quote_aware "A,B" "C,D" (by decide)).2⟩

/-- While no `<form>` start tag arrives and the parser is outside a form,
`FormParser`'s state never changes. -/
theorem formStep_inert :
    ∀ (evs : List HtmlEvent) (st : FormState), st.parsing_form = false →
      noFormTag evs = true → evs.foldlM formStep st = Except.ok st := by
  intro evs
  induction evs with
  | nil => intro st _ _; rfl
  | cons ev t ih =>
    intro st h1 h2
    simp only [noFormTag, List.all_cons, Bool.and_eq_true] at h2
    have hstep : formStep st ev = .ok st := by
      cases ev with
      | startTag n attrs =>
        have hn : n ≠ "form" := by simpa using h2.1
        simp [formStep, hn, h1]
      | endTag n =>
        by_cases hn : n = "form"
        · subst hn
          cases st
          simp_all [formStep]
        · simp [formStep, hn]
      | text s => rfl
    rw [List.foldlM_cons, hstep]
    have h2' : noFormTag t = true := by simpa [noFormTag] using h2.2
    simpa using ih st h1 h2'

/-- C9 amended: `dibbs_session` makes a single attempt with no retry loop
and no `AuthenticationError`: a failed landing-page request propagates its
error immediately; and a landing page *without* a consent form does not fail
at all — the parser yields an empty field set and the handshake POSTs it to
the host root (`host ++ ''`), succeeding whenever the POST does (cookie
retention itself is delegated to `requests.Session` and outside the
embedding). -/
theorem c9_single_attempt_no_form_ok (host : String) (net : Net) :
    (∀ e, net.warningPage = .error e → dibbs_session host net = .error e)
    ∧ (∀ evs, net.warningPage = .ok evs → noFormTag evs = true →
        dibbs_session host net
          = net.postResult.map fun _ =>
              [Request.get (host ++ "dodwarning.aspx?goto=/"),
               Request.post (host ++ "") []]) := by
  constructor
  · intro e he
    unfold dibbs_session
    rw [he]
    rfl
  · intro evs hok hnf
    have hfp : formParse evs = .ok ([], "", "get") := by
      unfold formParse
      rw [formStep_inert evs {} rfl hnf]
      rfl
    unfold dibbs_session
    rw [hok]
    show (formParse evs).bind _ = _
    rw [hfp]
    cases hpost : net.postResult with
    | ok u =>
      cases u
      simp only [hpost, Except.map]
      rfl
    | error e =>
      simp only [hpost, Except.map]
      rfl

/-- C9 counterexample: session establishment does not fail when no consent
form is found.  On a landing page with no `<form>` at all, `dibbs_session`
succeeds, POSTing an empty field set to the host itself — there is no
`AuthenticationError` and no retry budget in this code path. -/
theorem c9_counterexample :
    noFormTag c9NoFormPage = true
    ∧ dibbs_session "https://www.dibbs.bsm.dla.mil/" c9Net
        = .ok [Request.get "https://www.dibbs.bsm.dla.mil/dodwarning.aspx?goto=/",
               Request.post "https://www.dibbs.bsm.dla.mil/" []] := by
  refine ⟨by decide, by rfl⟩

/-- C9 witness: the amended theorem applied to the concrete form-less
network. -/
theorem c9_witness :
    c9Net.warningPage = .ok c9NoFormPage
    ∧ noFormTag c9NoFormPage = true
    ∧ dibbs_session "h/" c9Net
        = c9Net.postResult.map fun _ =>
            [Request.get ("h/" ++ "dodwarning.aspx?goto=/"), Request.post ("h/" ++ "") []] := by
  exact ⟨rfl, by decide,
    (c9_single_attempt_no_form_ok "h/" c9Net).2 c9NoFormPage rfl (by decide)⟩

/-- Every page number the crawl loop requests — except possibly the final
request — yielded a non-empty batch: once a page comes back empty the loop
stops requesting. -/
theorem crawlLoop_requests_nonempty {α : Type} (pages : Nat → List α) (countDecl : Nat)
    (tm : Bool) (mr : Option Nat) :
    ∀ (fuel : Nat) (rows prevBatch : List α) (number i n : Nat),
      (crawlLoop pages countDecl tm mr fuel rows prevBatch number).2.get? i = some n →
      i + 1 < (crawlLoop pages countDecl tm mr fuel rows prevBatch number).2.length →
      pages n ≠ [] := by
  intro fuel
  induction fuel with
  | zero =>
    intro rows prevBatch number i n hget hlen
    unfold crawlLoop at hget hlen
    by_cases h1 : rows.length < countDecl ∧ prevBatch.isEmpty = false
    · rw [if_pos h1] at hget hlen
      by_cases h2 : checkLimit tm mr rows.length
      · rw [if_pos h2] at hget
        simp at hget
      · rw [if_neg h2] at hget hlen
        by_cases h3 : (pages (number + 1)).isEmpty
        · rw [if_pos h3] at hlen
          simp at hlen
        · rw [if_neg h3] at hget
          simp at hget
    · rw [if_neg h1] at hget
      simp at hget
  | succ fuel ih =>
    intro rows prevBatch number i n hget hlen
    unfold crawlLoop at hget hlen
    by_cases h1 : rows.length < countDecl ∧ prevBatch.isEmpty = false
    · rw [if_pos h1] at hget hlen
      by_cases h2 : checkLimit tm mr rows.length
      · rw [if_pos h2] at hget
        simp at hget
      · rw [if_neg h2] at hget hlen
        by_cases h3 : (pages (number + 1)).isEmpty
        · rw [if_pos h3] at hlen
          simp at hlen
        · rw [if_neg h3] at hget hlen
          simp only [List.get?] at hget
          cases i with
          | zero =>
            simp at hget
            subst hget
            intro hcontra
            rw [hcontra] at h3
            simp at h3
          | succ j =>
            simp only [List.length_cons] at hlen
            exact ih (rows ++ pages (number + 1)) (pages (number + 1)) (number + 1) j n
              (by simpa using hget) (by omega)
    · rw [if_neg h1] at hget
      simp at hget

/-- C6: once a fetched page parses to zero rows the crawler issues no
further page request, even when the accumulated row count is still below
the declared total — every requested page except possibly the last returned
at least one row, and the (total) loop treats the empty page as end-of-data
rather than an error. -/
theorem c6_stops_after_empty_page {α : Type} (pages : Nat → List α)
    (countDecl : Nat) (tm : Bool) (mr : Option Nat) (i n : Nat)
    (hget : (dibbs_solicitations_scrape pages countDecl tm mr).2.get? i = some n)
    (hlen : i + 1 < (dibbs_solicitations_scrape pages countDecl tm mr).2.length) :
    pages n ≠ [] := by
  unfold dibbs_solicitations_scrape at hget hlen
  by_cases h : checkLimit tm mr (pages 1).length
  · rw [if_pos h] at hget
    simp at hget
  · rw [if_neg h] at hget hlen
    exact crawlLoop_requests_nonempty pages countDecl tm mr countDecl (pages 1) (pages 1) 1
      i n hget hlen

/-- C6 witness: with pages `[10]`, `[20]`, `[]` and a declared count of 10,
the crawl requests pages 2 and 3 and stops; the theorem applies at the
non-final request. -/
theorem c6_witness :
    (dibbs_solicitations_scrape c6Pages 10 false none).2.get? 0 = some 2
    ∧ 0 + 1 < (dibbs_solicitations_scrape c6Pages 10 false none).2.length
    ∧ c6Pages 2 ≠ [] := by
  refine ⟨by decide, by decide,
    c6_stops_after_empty_page c6Pages 10 false none 0 2 (by decide) (by decide)⟩

/-- `updateFirst` touches at most the first matching element: position `i`
afterwards holds either the original element or its image under `f`. -/
theorem updateFirst_get? {α : Type} (p : α → Bool) (f : α → α) :
    ∀ (l l' : List α), updateFirst p f l = some l' →
      ∀ i c, l.get? i = some c → l'.get? i = some c ∨ l'.get? i = some (f c) := by
  intro l
  induction l with
  | nil => intro l' h; simp [updateFirst] at h
  | cons a t ih =>
    intro l' h i c hget
    unfold updateFirst at h
    by_cases hp : p a
    · rw [if_pos hp] at h
      cases h
      cases i with
      | zero =>
        simp only [List.get?] at hget
        cases hget
        right
        rfl
      | succ j =>
        left
        simpa using hget
    · rw [if_neg hp] at h
      cases ht : updateFirst p f t with
      | none => rw [ht] at h; simp at h
      | some t' =>
        rw [ht] at h
        simp at h
        subst h
        cases i with
        | zero =>
          left
          simpa using hget
        | succ j =>
          simpa using ih t' ht j c (by simpa using hget)

/-- An unchanged CLIN satisfies the pass-2 preservation contract. -/
theorem clinPreservedWeb_refl (c : Clin) : clinPreservedWeb c c := by
  unfold clinPreservedWeb
  refine ⟨fun _ => rfl, fun _ => rfl, fun _ => rfl, rfl, rfl, rfl, rfl, rfl, rfl, rfl⟩

/-- An unchanged CLIN satisfies the pass-3 preservation contract. -/
theorem clinPreservedIn_refl (c : Clin) : clinPreservedIn c c := by
  unfold clinPreservedIn
  refine ⟨fun _ => rfl, fun _ => rfl, fun _ => rfl, fun _ => rfl, rfl, rfl, rfl, rfl, rfl,
    rfl, rfl⟩

/-- The pass-2 enhancement written as a single record update. -/
theorem enhanceWebClin_eq (r : WebRecord) (nom pr : String) (q : Option Int) (c : Clin) :
    enhanceWebClin r nom pr q c =
      { c with
        technical_documents := some r.technical_documents
        nomenclature := if c.nomenclature = "" then nom else c.nomenclature
        pr_number := if c.pr_number = "" then pr else c.pr_number
        quantity := if c.quantity.getD 0 = 0 then q else c.quantity } := by
  unfold enhanceWebClin
  by_cases h1 : c.nomenclature = "" <;> by_cases h2 : c.pr_number = "" <;>
    by_cases h3 : c.quantity.getD 0 = 0 <;> simp [h1, h2, h3]

/-- The pass-2 enhancement fills only falsy fields. -/
theorem enhanceWebClin_preserved (r : WebRecord) (nom pr : String) (q : Option Int)
    (c : Clin) : clinPreservedWeb c (enhanceWebClin r nom pr q c) := by
  rw [enhanceWebClin_eq]
  unfold clinPreservedWeb
  refine ⟨?_, ?_, ?_, rfl, rfl, rfl, rfl, rfl, rfl, rfl⟩
  · intro h; simp [h]
  · intro h; simp [h]
  · intro h; simp [h]

/-- The pass-3 enhancement written as a single record update. -/
theorem enhanceInClin_eq (r : InRecord) (c : Clin) :
    enhanceInClin r c =
      { c with
        nomenclature := if c.nomenclature = "" then clean_nomenclature r.nomenclature
                        else c.nomenclature
        pr_number := if c.pr_number = "" then r.purchase_request else c.pr_number
        quantity := if c.quantity.getD 0 = 0 then _parse_int r.quantity else c.quantity
        unit_of_issue := if c.unit_of_issue.getD "" = "" then some r.unit_issue
                         else c.unit_of_issue } := by
  unfold enhanceInClin
  by_cases h1 : c.nomenclature = "" <;> by_cases h2 : c.pr_number = "" <;>
    by_cases h3 : c.quantity.getD 0 = 0 <;> by_cases h4 : c.unit_of_issue.getD "" = "" <;>
    simp [h1, h2, h3, h4]

/-- The pass-3 enhancement fills only falsy fields. -/
theorem enhanceInClin_preserved (r : InRecord) (c : Clin) :
    clinPreservedIn c (enhanceInClin r c) := by
  rw [enhanceInClin_eq]
  unfold clinPreservedIn
  refine ⟨?_, ?_, ?_, ?_, rfl, rfl, rfl, rfl, rfl, rfl, rfl⟩
  · intro h; simp [h]
  · intro h; simp [h]
  · intro h; simp [h]
  · intro h; simp [h]

/-- C2 amended: when a web or index row matches an existing CLIN by cleaned
NSN, the fields nomenclature / PR number / quantity (and, in pass 3,
unit-of-issue) are filled only when currently falsy and keep their non-falsy
values, and the CLIN's line number, NSN, part number, unit price and
delivery days are untouched (pass 2 *overwrites* technical documents, which
is why they are outside the contract); the web pass also preserves a truthy
solicitation-level return-by date.  The original claim fails at solicitation
level because the index pass overwrites the return-by date unconditionally
(see the counterexample). -/
theorem c2_fill_only_empty (sol : Solicitation) (rw : WebRecord) (ri : InRecord)
    (i : Nat) (c : Clin) (hc : sol.clins.get? i = some c) :
    (∃ cw, (webOverlaySol sol rw).clins.get? i = some cw ∧ clinPreservedWeb c cw)
    ∧ (∃ ci, (inOverlaySol sol ri).clins.get? i = some ci ∧ clinPreservedIn c ci)
    ∧ (sol.return_by_date.getD "" ≠ "" →
        (webOverlaySol sol rw).return_by_date = sol.return_by_date) := by
  have hi : i < sol.clins.length := by
    rcases List.get?_eq_some.mp hc with ⟨h, _⟩
    exact h
  refine ⟨?_, ?_, ?_⟩
  · show (∃ cw, (webClinsUpdate sol.clins rw).get? i = some cw ∧ clinPreservedWeb c cw)
    unfold webClinsUpdate
    cases hu : updateFirst
        (·.nsn = clean_nsn rw.nsn_part_number)
        (enhanceWebClin rw (clean_nomenclature rw.nomenclature)
          (extract_quantity_from_purchase_request rw.purchase_request).1
          (match (extract_quantity_from_purchase_request rw.purchase_request).2 with
           | some q => some q
           | none => _parse_int rw.quantity)) sol.clins with
    | some l' =>
      rcases updateFirst_get? _ _ sol.clins l' hu i c hc with h | h
      · exact ⟨c, by simpa [hu] using h, clinPreservedWeb_refl c⟩
      · exact ⟨_, by simpa [hu] using h, enhanceWebClin_preserved _ _ _ _ c⟩
    | none =>
      refine ⟨c, ?_, clinPreservedWeb_refl c⟩
      simp only [hu]
      rw [List.get?_append hi]
      exact hc
  · show (∃ ci, (inClinsUpdate sol.clins ri).get? i = some ci ∧ clinPreservedIn c ci)
    unfold inClinsUpdate
    cases hu : updateFirst
        (·.nsn = ri.nsn_clean.getD (clean_nsn ri.nsn_part_number))
        (enhanceInClin ri) sol.clins with
    | some l' =>
      rcases updateFirst_get? _ _ sol.clins l' hu i c hc with h | h
      · exact ⟨c, by simpa [hu] using h, clinPreservedIn_refl c⟩
      · exact ⟨_, by simpa [hu] using h, enhanceInClin_preserved ri c⟩
    | none =>
      refine ⟨c, ?_, clinPreservedIn_refl c⟩
      simp only [hu]
      rw [List.get?_append hi]
      exact hc
  · intro hret
    show (webHeaderSol sol rw).return_by_date = sol.return_by_date
    unfold webHeaderSol
    split_ifs <;> simp_all

/-- C2 witness: the amended theorem at a concrete solicitation whose only
CLIN already carries every enrichable field. -/
theorem c2_witness :
    c2DemoSol.clins.get? 0 = some c2DemoClin
    ∧ ((∃ cw, (webOverlaySol c2DemoSol (mkWebRow "SPE1C1" "1234567890123")).clins.get? 0
            = some cw ∧ clinPreservedWeb c2DemoClin cw)
       ∧ (∃ ci, (inOverlaySol c2DemoSol (mkInRow "SPE1C1" "1234-56-789-0123" "070125")).clins.get? 0
            = some ci ∧ clinPreservedIn c2DemoClin ci)
       ∧ (c2DemoSol.return_by_date.getD "" ≠ "" →
           (webOverlaySol c2DemoSol (mkWebRow "SPE1C1" "1234567890123")).return_by_date
             = c2DemoSol.return_by_date)) :=
  ⟨by decide, c2_fill_only_empty c2DemoSol (mkWebRow "SPE1C1" "1234567890123")
    (mkInRow "SPE1C1" "1234-56-789-0123" "070125") 0 c2DemoClin (by decide)⟩

/-- A failed lookup means the key is absent. -/
theorem lookupSM_eq_none_notMem (m : SolMap) (k : String) (h : lookupSM m k = none) :
    k ∉ m.map Prod.fst := by
  intro hmem
  rw [List.mem_map] at hmem
  obtain ⟨p, hp, hk⟩ := hmem
  unfold lookupSM at h
  rw [Option.map_eq_none'] at h
  have := List.find?_eq_none.mp h p hp
  simp [hk] at this

/-- A successful lookup returns a stored value whose solicitation number is
the key, given the map invariant. -/
theorem lookupSM_inv (m : SolMap) (k : String) (s : Solicitation)
    (hInv : solMapInv m) (h : lookupSM m k = some s) :
    s.solicitation_number = k := by
  unfold lookupSM at h
  rw [Option.map_eq_some'] at h
  obtain ⟨p, hp, hs⟩ := h
  have hmem := List.mem_of_find?_eq_some hp
  have hpk : p.1 = k := by simpa using List.find?_some hp
  subst hs
  rw [hInv.2 p hmem, hpk]

/-- Keys after a dict assignment. -/
theorem keys_setSM (m : SolMap) (k : String) (v : Solicitation) :
    (setSM m k v).map Prod.fst
      = if k ∈ m.map Prod.fst then m.map Prod.fst else m.map Prod.fst ++ [k] := by
  induction m with
  | nil => simp [setSM]
  | cons p rest ih =>
    obtain ⟨k', v'⟩ := p
    unfold setSM
    by_cases hk : k' = k
    · subst hk
      simp
    · rw [if_neg hk]
      simp only [List.map_cons]
      rw [ih]
      by_cases hmem : k ∈ rest.map Prod.fst
      · rw [if_pos hmem, if_pos (by simp [hmem])]
      · rw [if_neg hmem, if_neg (by simp [hmem, Ne.symm hk])]
        simp

/-- Membership after a dict assignment. -/
theorem mem_setSM (m : SolMap) (k : String) (v : Solicitation) (p : String × Solicitation)
    (hp : p ∈ setSM m k v) : p = (k, v) ∨ p ∈ m := by
  induction m with
  | nil => simpa [setSM] using hp
  | cons q rest ih =>
    obtain ⟨k', v'⟩ := q
    unfold setSM at hp
    by_cases hk : k' = k
    · rw [if_pos hk] at hp
      rcases List.mem_cons.mp hp with h | h
      · left; rw [h, hk]
      · right; exact List.mem_cons_of_mem _ h
    · rw [if_neg hk] at hp
      rcases List.mem_cons.mp hp with h | h
      · right; rw [h]; exact List.mem_cons_self _ _
      · rcases ih h with h2 | h2
        · left; exact h2
        · right; exact List.mem_cons_of_mem _ h2

/-- Dict assignment with a consistent value preserves the map invariant. -/
theorem solMapInv_setSM (m : SolMap) (k : String) (v : Solicitation)
    (hInv : solMapInv m) (hv : v.solicitation_number = k) :
    solMapInv (setSM m k v) := by
  constructor
  · rw [keys_setSM]
    by_cases hmem : k ∈ m.map Prod.fst
    · rw [if_pos hmem]; exact hInv.1
    · rw [if_neg hmem]
      rw [List.nodup_append]
      exact ⟨hInv.1, List.nodup_singleton k, by simpa using fun hk => hmem hk⟩
  · intro p hp
    rcases mem_setSM m k v p hp with h | h
    · rw [h]; exact hv
    · exact hInv.2 p h

/-- The create-if-absent-then-assign shape shared by the three merge passes
preserves the map invariant whenever the per-solicitation transformation
keeps the solicitation number. -/
theorem solMapInv_getOrCreate_set (m : SolMap) (k : String) (dflt : Solicitation)
    (f : Solicitation → Solicitation) (hInv : solMapInv m)
    (hd : dflt.solicitation_number = k)
    (hf : ∀ s, (f s).solicitation_number = s.solicitation_number) :
    solMapInv (setSM (getOrCreate m k dflt).2 k (f (getOrCreate m k dflt).1)) := by
  unfold getOrCreate
  cases hl : lookupSM m k with
  | some s =>
    simp only
    exact solMapInv_setSM m k _ hInv (by rw [hf]; exact lookupSM_inv m k s hInv hl)
  | none =>
    simp only
    have hnot : k ∉ m.map Prod.fst := lookupSM_eq_none_notMem m k hl
    have hInv1 : solMapInv (m ++ [(k, dflt)]) := by
      constructor
      · rw [List.map_append]
        rw [List.nodup_append]
        exact ⟨hInv.1, by simp, by simpa using fun hk => hnot hk⟩
      · intro p hp
        rcases List.mem_append.mp hp with h | h
        · exact hInv.2 p h
        · simp at h
          rw [h]
          exact hd
    exact solMapInv_setSM _ k _ hInv1 (by rw [hf]; exact hd)

/-- `newSolicitation` is keyed by its own number. -/
theorem newSolicitation_number (num source : String) :
    (newSolicitation num source).solicitation_number = num := rfl

/-- `bqHeader` does not change the solicitation number. -/
theorem bqHeader_number (sol : Solicitation) (records : List BqRecord) :
    (bqHeader sol records).solicitation_number = sol.solicitation_number := by
  cases records <;> rfl

/-- Appending batch-quote CLINs does not change the solicitation number. -/
theorem foldl_addBqClin_number :
    ∀ (rs : List BqRecord) (sol : Solicitation),
      (rs.foldl addBqClin sol).solicitation_number = sol.solicitation_number := by
  intro rs
  induction rs with
  | nil => intro sol; rfl
  | cons r t ih => intro sol; rw [List.foldl_cons, ih]; rfl

/-- The pass-2 header update does not change the solicitation number. -/
theorem webHeaderSol_number (sol : Solicitation) (r : WebRecord) :
    (webHeaderSol sol r).solicitation_number = sol.solicitation_number := by
  simp only [webHeaderSol]
  split_ifs <;> rfl

/-- The pass-2 overlay does not change the solicitation number. -/
theorem webOverlaySol_number (sol : Solicitation) (r : WebRecord) :
    (webOverlaySol sol r).solicitation_number = sol.solicitation_number :=
  webHeaderSol_number sol r

/-- The pass-3 overlay does not change the solicitation number. -/
theorem inOverlaySol_number (sol : Solicitation) (r : InRecord) :
    (inOverlaySol sol r).solicitation_number = sol.solicitation_number := rfl

/-- Pass 1 preserves the map invariant. -/
theorem solMapInv_bqSeedStep (m : SolMap) (entry : (String × String) × List BqRecord)
    (hInv : solMapInv m) : solMapInv (bqSeedStep m entry) := by
  unfold bqSeedStep
  exact solMapInv_getOrCreate_set m _ _
    (fun sol => entry.2.foldl addBqClin (bqHeader sol entry.2)) hInv rfl
    (fun s => by rw [foldl_addBqClin_number, bqHeader_number])

/-- Pass 2 preserves the map invariant. -/
theorem solMapInv_webStep (m : SolMap) (r : WebRecord) (hInv : solMapInv m) :
    solMapInv (webStep m r) := by
  unfold webStep
  by_cases hs : pyStrip r.solicitation = ""
  · rw [if_pos hs]; exact hInv
  · rw [if_neg hs]
    exact solMapInv_getOrCreate_set m _ _ (fun sol => webOverlaySol sol r) hInv rfl
      (fun s => webOverlaySol_number s r)

/-- Pass 3 preserves the map invariant. -/
theorem solMapInv_inStep (m : SolMap) (r : InRecord) (hInv : solMapInv m) :
    solMapInv (inStep m r) := by
  unfold inStep
  exact solMapInv_getOrCreate_set m _ _ (fun sol => inOverlaySol sol r) hInv rfl
    (fun s => inOverlaySol_number s r)

/-- An invariant-preserving step stays invariant over a fold. -/
theorem solMapInv_foldl {β : Type} (step : SolMap → β → SolMap)
    (hstep : ∀ m b, solMapInv m → solMapInv (step m b)) :
    ∀ (l : List β) (m : SolMap), solMapInv m → solMapInv (l.foldl step m) := by
  intro l
  induction l with
  | nil => intro m h; exact h
  | cons b t ih => intro m h; rw [List.foldl_cons]; exact ih _ (hstep m b h)

/-- Pass 4 preserves the map invariant (it only rewrites CLIN lists). -/
theorem solMapInv_mergePass4 (asLookup : List (String × List AsRecord)) (m : SolMap)
    (hInv : solMapInv m) : solMapInv (mergePass4 asLookup m) := by
  constructor
  · unfold mergePass4
    rw [List.map_map]
    exact hInv.1
  · intro p hp
    unfold mergePass4 at hp
    rw [List.mem_map] at hp
    obtain ⟨e, he, rfl⟩ := hp
    exact hInv.2 e he

/-- C1 amended: one merge run yields exactly one Solicitation per *actual*
key — the returned solicitation numbers are pairwise distinct.  The keys,
however, are not the spec's cleaned identifiers: the batch-quote and web
passes key by the trimmed-and-uppercased number with hyphens retained, and
the index pass keys by the raw number (see the counterexample). -/
theorem c1_distinct_solicitations (webData : List WebRecord) (inData : List InRecord)
    (bqData : List BqRecord) (asData : List AsRecord) :
    ((merge_data_sources webData inData bqData asData).map (·.solicitation_number)).Nodup := by
  unfold merge_data_sources
  have h0 : solMapInv [] := ⟨List.nodup_nil, by simp⟩
  have h1 := solMapInv_foldl bqSeedStep solMapInv_bqSeedStep
    (groupBy (fun r => (r.solicitation_number, r.line_number)) bqData) [] h0
  have h2 := solMapInv_foldl webStep solMapInv_webStep webData _ h1
  have h3 := solMapInv_foldl inStep solMapInv_inStep inData _ h2
  have h4 := solMapInv_mergePass4 (groupBy (fun r => pyReplace r.nsn "-" "") asData) _ h3
  rw [List.map_map]
  have heq : (mergePass4 (groupBy (fun r => pyReplace r.nsn "-" "") asData)
        (inData.foldl inStep (webData.foldl webStep
          ((groupBy (fun r => (r.solicitation_number, r.line_number)) bqData).foldl
            bqSeedStep [])))).map ((·.solicitation_number) ∘ (·.2))
      = (mergePass4 (groupBy (fun r => pyReplace r.nsn "-" "") asData)
        (inData.foldl inStep (webData.foldl webStep
          ((groupBy (fun r => (r.solicitation_number, r.line_number)) bqData).foldl
            bqSeedStep [])))).map Prod.fst :=
    List.map_congr_left fun p hp => h4.2 p hp
  rw [heq]
  exact h4.1

/-- Group lookup through a cons cell. -/
theorem lookupGroup_cons {κ ν : Type} [DecidableEq κ]
    (k0 : κ) (vs : List ν) (rest : List (κ × List ν)) (k : κ) :
    lookupGroup ((k0, vs) :: rest) k = if k0 = k then some vs else lookupGroup rest k := by
  unfold lookupGroup
  rw [List.find?_cons]
  by_cases h : k0 = k
  · simp [h]
  · simp [h]

/-- Appending to a group changes only that key's lookup. -/
theorem lookupGroup_addGroup {κ ν : Type} [DecidableEq κ]
    (acc : List (κ × List ν)) (k' k : κ) (v : ν) :
    lookupGroup (addGroup acc k' v) k
      = if k' = k then some ((lookupGroup acc k).getD [] ++ [v])
        else lookupGroup acc k := by
  by_cases hkk : k' = k
  · subst hkk
    rw [if_pos rfl]
    induction acc with
    | nil => simp [addGroup, lookupGroup_cons, lookupGroup]
    | cons p rest ih =>
      obtain ⟨k0, vs⟩ := p
      show lookupGroup
          (if k0 = k' then (k0, vs ++ [v]) :: rest else (k0, vs) :: addGroup rest k' v) k' = _
      by_cases h0 : k0 = k'
      · subst h0
        rw [if_pos rfl, lookupGroup_cons, if_pos rfl, lookupGroup_cons, if_pos rfl]
        simp
      · rw [if_neg h0, lookupGroup_cons, if_neg h0, lookupGroup_cons, if_neg h0]
        exact ih
  · rw [if_neg hkk]
    induction acc with
    | nil => simp [addGroup, lookupGroup_cons, lookupGroup, hkk]
    | cons p rest ih =>
      obtain ⟨k0, vs⟩ := p
      show lookupGroup
          (if k0 = k' then (k0, vs ++ [v]) :: rest else (k0, vs) :: addGroup rest k' v) k = _
      by_cases h0 : k0 = k'
      · subst h0
        rw [if_pos rfl, lookupGroup_cons, lookupGroup_cons, if_neg hkk, if_neg hkk]
      · rw [if_neg h0, lookupGroup_cons, lookupGroup_cons]
        by_cases hk : k0 = k
        · rw [if_pos hk, if_pos hk]
        · rw [if_neg hk, if_neg hk]
          exact ih

/-- Group lookup after folding a list into groups: the group is exactly the
filtered sub-list (appended to whatever the accumulator already held). -/
theorem lookupGroup_foldl_addGroup {κ ν : Type} [DecidableEq κ] [DecidableEq ν]
    (key : ν → κ) (k : κ) :
    ∀ (l : List ν) (acc : List (κ × List ν)),
      lookupGroup (l.foldl (fun a v => addGroup a (key v) v) acc) k
        = match lookupGroup acc k with
          | some g => some (g ++ l.filter fun v => key v = k)
          | none =>
            if (l.filter fun v => key v = k) = [] then none
            else some (l.filter fun v => key v = k) := by
  intro l
  induction l with
  | nil =>
    intro acc
    cases h : lookupGroup acc k <;> simp [h]
  | cons v t ih =>
    intro acc
    rw [List.foldl_cons, ih (addGroup acc (key v) v), lookupGroup_addGroup]
    by_cases hv : key v = k
    · rw [if_pos hv]
      cases h : lookupGroup acc k with
      | some g => simp [h, List.filter_cons, hv]
      | none => simp [h, List.filter_cons, hv]
    · rw [if_neg hv]
      cases h : lookupGroup acc k <;> simp [h, List.filter_cons, hv]

/-- The group stored for key `k` by `groupBy` is the filter of the input. -/
theorem lookupGroup_groupBy {κ ν : Type} [DecidableEq κ] [DecidableEq ν] (key : ν → κ)
    (l : List ν) (k : κ) :
    lookupGroup (groupBy key l) k
      = if (l.filter fun v => key v = k) = [] then none
        else some (l.filter fun v => key v = k) := by
  unfold groupBy
  rw [lookupGroup_foldl_addGroup key k l []]
  rfl

/-- Attaching approved sources never changes a CLIN's NSN. -/
theorem attachAsClin_nsn (lk : List (String × List AsRecord)) (c : Clin) :
    (attachAsClin lk c).nsn = c.nsn := by
  unfold attachAsClin
  by_cases h : c.nsn ≠ ""
  · rw [if_pos h]
    cases hl : lookupGroup lk c.nsn with
    | none => rfl
    | some sources =>
      simp only
      cases hm : sources.map fun s =>
          ({ supplier_cage_code := s.supplier_cage_code
             supplier_part_number := s.supplier_part_number } : ApprovedSourceOut) with
      | nil => rfl
      | cons a l =>
        simp only
        split_ifs <;> rfl
  · rw [if_neg h]

/-- When the CLIN's NSN has a non-empty source group, the full projected
group is attached. -/
theorem attachAsClin_sources (lk : List (String × List AsRecord)) (c : Clin)
    (srcs : List AsRecord) (hnsn : c.nsn ≠ "")
    (hl : lookupGroup lk c.nsn = some srcs) :
    (attachAsClin lk c).approved_sources
      = some (srcs.map fun s =>
          ({ supplier_cage_code := s.supplier_cage_code
             supplier_part_number := s.supplier_part_number } : ApprovedSourceOut)) := by
  unfold attachAsClin
  rw [if_pos hnsn, hl]
  simp only
  cases hm : srcs.map fun s =>
      ({ supplier_cage_code := s.supplier_cage_code
         supplier_part_number := s.supplier_part_number } : ApprovedSourceOut) with
  | nil => simp [hm]
  | cons a l =>
    simp only
    split_ifs <;> simp [hm]

/-- C4: every approved-source row is fanned out to every CLIN sharing its
hyphen-stripped NSN.  In any merge run, a returned CLIN whose (non-empty)
NSN is `N` carries exactly the full, ordered projection of all
approved-source rows whose hyphen-stripped NSN is `N` — including CLINs
introduced only by the web overlay pass (many-to-many, not copy-once). -/
theorem c4_approved_source_fanout (webData : List WebRecord) (inData : List InRecord)
    (bqData : List BqRecord) (asData : List AsRecord) (sol : Solicitation) (clin : Clin)
    (N : String) (srcs : List AsRecord)
    (hsol : sol ∈ merge_data_sources webData inData bqData asData)
    (hclin : clin ∈ sol.clins)
    (hnsn : clin.nsn = N) (hN : N ≠ "")
    (hsrc : (asData.filter fun r => pyReplace r.nsn "-" "" = N) = srcs)
    (hne : srcs ≠ []) :
    clin.approved_sources
      = some (srcs.map fun s =>
          ({ supplier_cage_code := s.supplier_cage_code
             supplier_part_number := s.supplier_part_number } : ApprovedSourceOut)) := by
  unfold merge_data_sources at hsol
  rw [List.mem_map] at hsol
  obtain ⟨e4, he4, rfl⟩ := hsol
  unfold mergePass4 at he4
  rw [List.mem_map] at he4
  obtain ⟨e3, he3, rfl⟩ := he4
  simp only at hclin
  rw [List.mem_map] at hclin
  obtain ⟨c0, hc0, rfl⟩ := hclin
  have hnsn0 : c0.nsn = N := by
    rw [← attachAsClin_nsn (groupBy (fun r => pyReplace r.nsn "-" "") asData) c0]
    exact hnsn
  have hlk : lookupGroup (groupBy (fun r => pyReplace r.nsn "-" "") asData) c0.nsn
      = some srcs := by
    rw [hnsn0, lookupGroup_groupBy]
    simp only [hsrc]
    rw [if_neg hne]
  exact attachAsClin_sources _ c0 srcs (by rw [hnsn0]; exact hN) hlk

/-- C4 witness: a merge with one web row and two approved-source rows for
the same NSN; the single web-introduced CLIN receives both sources. -/
theorem c4_witness :
    c4DemoSol ∈ merge_data_sources [mkWebRow "SPE2" "1234567890123"] [] []
        [mkAsRow "1234-567-890123" "C1" "P-100", mkAsRow "1234567890123" "C2" "P-200"]
    ∧ c4DemoClin ∈ c4DemoSol.clins
    ∧ c4DemoClin.approved_sources
        = some ([mkAsRow "1234-567-890123" "C1" "P-100",
                 mkAsRow "1234567890123" "C2" "P-200"].map fun s =>
            ({ supplier_cage_code := s.supplier_cage_code
               supplier_part_number := s.supplier_part_number } : ApprovedSourceOut)) := by
  refine ⟨by decide, by decide, ?_⟩
  exact c4_approved_source_fanout [mkWebRow "SPE2" "1234567890123"] [] []
    [mkAsRow "1234-567-890123" "C1" "P-100", mkAsRow "1234567890123" "C2" "P-200"]
    c4DemoSol c4DemoClin "1234567890123"
    [mkAsRow "1234-567-890123" "C1" "P-100", mkAsRow "1234567890123" "C2" "P-200"]
    (by decide) (by decide) (by decide) (by decide) (by decide) (by decide)

end DIBBS
